import Mathlib

/-!
Verification of the dartcounter vision pipeline.

A shallow embedding of the computer-vision and turn-tracking code of the
`dartcounter` repository (TypeScript), together with theorems settling the
frozen claims about it.

Modelling conventions, used throughout:

* JavaScript numbers are modelled exactly: integer-valued quantities as
  `ℕ`/`ℤ`, fractional arithmetic as `ℚ` (idealised exact arithmetic in
  place of IEEE doubles), and the trigonometric board-mapper module as
  functions over `ℝ`.
* `Math.sqrt` is not rational-valued, so the modules that merely *store or
  compare* square roots take the square-root function as an explicit
  parameter `msqrt : ℚ → ℚ`; every theorem about those modules holds for
  all interpretations of `msqrt`.
* `ImageData.data` (a `Uint8ClampedArray` of RGBA bytes) is modelled as a
  total function from byte index to byte value; arrays that the source
  code fills with loops become `List`s built with `List.map` over index
  ranges.
* `while` loops over an explicit stack (the flood fills) are modelled by
  fuel-indexed recursion; the fuel `4*width*height + 1` dominates the
  number of loop iterations the JavaScript loop can perform (each
  iteration pops one element and at most `4·width·height + 1` elements are
  ever pushed, since pushes only accompany marking a pixel visited).
-/

namespace FrameDiff

/-- A pixel coordinate, as produced by the contour tracing code.
JavaScript pushes `x±1`/`y±1` without clamping, so coordinates are `ℤ`. -/
structure Pt where
  x : ℤ
  y : ℤ
  deriving DecidableEq, Repr

/-- A point with rational coordinates (centroids). -/
structure QPoint where
  x : ℚ
  y : ℚ
  deriving DecidableEq, Repr

/-- `ImageData`: width, height and the RGBA byte array as a total function
from byte index to byte value. -/
structure ImageData where
  width : ℕ
  height : ℕ
  data : ℕ → ℕ

/-- `Math.round` for the non-negative values produced by the luminance
formula: round half away from zero, i.e. `⌊q + 1/2⌋`. -/
def jsRound (q : ℚ) : ℤ := ⌊q + 1/2⌋

/-- `DIFF_THRESHOLD = 30` — minimum pixel difference to consider changed. -/
def DIFF_THRESHOLD : ℕ := 30

/-- `MIN_CONTOUR_AREA = 50`. -/
def MIN_CONTOUR_AREA : ℕ := 50

/-- `MAX_CONTOUR_AREA = 10000`. -/
def MAX_CONTOUR_AREA : ℕ := 10000

/-- `rgbToGrayscale`: the luminance `0.299·R + 0.587·G + 0.114·B` of pixel
`j` (bytes `4j`, `4j+1`, `4j+2`), rounded; the source writes these values
into a `Uint8Array` of length `width·height`. -/
def rgbToGrayscale (img : ImageData) : List ℤ :=
  (List.range (img.width * img.height)).map fun j =>
    jsRound ((299/1000 : ℚ) * img.data (4*j) + (587/1000 : ℚ) * img.data (4*j+1)
      + (114/1000 : ℚ) * img.data (4*j+2))

/-- `computeDifference`: per-index absolute difference of two grayscale
arrays, thresholded into a 0/255 mask. -/
def computeDifference (gray1 gray2 : List ℤ) (threshold : ℕ) : List ℕ :=
  (List.range gray1.length).map fun i =>
    if (threshold : ℤ) < |gray1.getD i 0 - gray2.getD i 0| then 255 else 0

/-- `morphologyCleanup`: one 3×3 dilation pass.  The result array is zero
outside `1 ≤ x ≤ width-2, 1 ≤ y ≤ height-2` (the source only writes
interior pixels of a zero-initialised array). -/
def morphologyCleanup (binary : List ℕ) (width height : ℕ) : List ℕ :=
  (List.range (width * height)).map fun idx =>
    let y := idx / width
    let x := idx % width
    if 1 ≤ y ∧ y ≤ height - 2 ∧ y < height - 1 ∧ 1 ≤ x ∧ x ≤ width - 2 ∧ x < width - 1 then
      if ([-1, 0, 1].any fun dy => [-1, 0, 1].any fun dx =>
          binary.getD (((y : ℤ) + dy) * width + ((x : ℤ) + dx)).toNat 0 == 255) then
        255
      else 0
    else 0

/-- One flood fill of `findContours`: the `while (stack.length > 0)` loop.
The list head is the stack top; the source pushes `(x+1,y)`, `(x-1,y)`,
`(x,y+1)`, `(x,y-1)` in that order, so `(x,y-1)` is popped first. -/
def floodFill (binary : List ℕ) (width height : ℕ) :
    ℕ → List Pt → List ℕ → List Pt → List Pt × List ℕ
  | 0, _, visited, contour => (contour, visited)
  | _ + 1, [], visited, contour => (contour, visited)
  | fuel + 1, p :: stack, visited, contour =>
    let pIdx := p.y * width + p.x
    if 0 ≤ p.x ∧ p.x < width ∧ 0 ≤ p.y ∧ p.y < height ∧
        binary.getD pIdx.toNat 0 = 255 ∧ visited.getD pIdx.toNat 0 = 0 then
      floodFill binary width height fuel
        (⟨p.x, p.y - 1⟩ :: ⟨p.x, p.y + 1⟩ :: ⟨p.x - 1, p.y⟩ :: ⟨p.x + 1, p.y⟩ :: stack)
        (visited.set pIdx.toNat 1) (contour ++ [p])
    else
      floodFill binary width height fuel stack visited contour

/-- The body of the pixel-scan loop of `findContours`: at pixel `xy`, if it
is set and unvisited, flood-fill from it and keep the component when its
point count lies in `[MIN_CONTOUR_AREA, MAX_CONTOUR_AREA]`. -/
def scanStep (binary : List ℕ) (width height : ℕ) (acc : List ℕ × List (List Pt))
    (xy : ℕ × ℕ) : List ℕ × List (List Pt) :=
  let idx := xy.2 * width + xy.1
  if binary.getD idx 0 = 255 ∧ acc.1.getD idx 0 = 0 then
    let res := floodFill binary width height (4 * width * height + 1)
      [⟨xy.1, xy.2⟩] acc.1 []
    if MIN_CONTOUR_AREA ≤ res.1.length ∧ res.1.length ≤ MAX_CONTOUR_AREA then
      (res.2, acc.2 ++ [res.1])
    else
      (res.2, acc.2)
  else
    acc

/-- `findContours`: scan all pixels in row-major order; flood-fill each
unvisited set pixel (the `visited` array starts as `new
Uint8Array(binary.length)`, i.e. all zero). -/
def findContours (binary : List ℕ) (width height : ℕ) : List (List Pt) :=
  (((List.range height).flatMap fun y => (List.range width).map fun x => (x, y)).foldl
    (scanStep binary width height) (List.replicate binary.length 0, [])).2

/-- `calculateCenterOfMass`: mean of the contour coordinates. -/
def calculateCenterOfMass (contour : List Pt) : QPoint :=
  ⟨((contour.foldl (fun s p => s + p.x) 0 : ℤ) : ℚ) / contour.length,
   ((contour.foldl (fun s p => s + p.y) 0 : ℤ) : ℚ) / contour.length⟩

/-- Result of `detectFrameDifference`. -/
structure FrameDiffResult where
  diffMask : List ℕ
  largestContour : Option (List Pt)
  centerOfMass : Option QPoint
  changeArea : ℕ

/-- The body of the `for (const contour of contours)` largest-contour
selection: keep the contour when its point count strictly exceeds the
running maximum (first maximum wins). -/
def largestStep (acc : Option (List Pt) × ℕ) (contour : List Pt) : Option (List Pt) × ℕ :=
  if acc.2 < contour.length then (some contour, contour.length) else acc

/-- The fold selecting the largest contour by point count, starting from
`largestContour = null`, `maxArea = 0`. -/
def largestFold (contours : List (List Pt)) : Option (List Pt) × ℕ :=
  contours.foldl largestStep (none, 0)

/-- `detectFrameDifference`: grayscale both frames, threshold the absolute
difference, dilate, extract contours, and report the largest contour, its
centroid, the RGBA rendering of the cleaned mask, and `changeArea`
(which the source sets to `maxArea`, the largest contour's point count). -/
def detectFrameDifference (currentFrame referenceFrame : ImageData) : FrameDiffResult :=
  let width := currentFrame.width
  let height := currentFrame.height
  let currentGray := rgbToGrayscale currentFrame
  let referenceGray := rgbToGrayscale referenceFrame
  let diff := computeDifference currentGray referenceGray DIFF_THRESHOLD
  let cleaned := morphologyCleanup diff width height
  let contours := findContours cleaned width height
  let best := largestFold contours
  { diffMask := (cleaned.map fun c => [c, c, c, 255]).flatten
    largestContour := best.1
    centerOfMass := best.1.map calculateCenterOfMass
    changeArea := best.2 }

/-- The contours of the cleaned difference mask of two frames (named so
theorems can refer to the intermediate stage of `detectFrameDifference`). -/
def cleanedContours (currentFrame referenceFrame : ImageData) : List (List Pt) :=
  findContours
    (morphologyCleanup
      (computeDifference (rgbToGrayscale currentFrame) (rgbToGrayscale referenceFrame)
        DIFF_THRESHOLD)
      currentFrame.width currentFrame.height)
    currentFrame.width currentFrame.height

/-- Written from the spec's words, for comparison with the source's
`changeArea`: the total changed-pixel count of the thresholded-and-cleaned
difference mask. -/
def specTotalChangedPixels (currentFrame referenceFrame : ImageData) : ℕ :=
  (morphologyCleanup
    (computeDifference (rgbToGrayscale currentFrame) (rgbToGrayscale referenceFrame)
      DIFF_THRESHOLD)
    currentFrame.width currentFrame.height).count 255

/-- Concrete test input: an 8×8 all-black frame. -/
def blackFrame8 : ImageData := ⟨8, 8, fun _ => 0⟩

/-- Concrete test input: an 8×8 black frame with a white 3×3 block at
x,y ∈ [3,5]; its dilation is the 5×5 block at x,y ∈ [2,6] (25 pixels),
below `MIN_CONTOUR_AREA`. -/
def blockFrame8 : ImageData :=
  ⟨8, 8, fun i =>
    let j := i / 4
    let x := j % 8
    let y := j / 8
    if 3 ≤ x ∧ x ≤ 5 ∧ 3 ≤ y ∧ y ≤ 5 then 255 else 0⟩

/-- Concrete test input: a 2×2 all-black frame (its interior pixel scan is
empty, so the board detector finds no contours in it). -/
def tinyBlackFrame : ImageData := ⟨2, 2, fun _ => 0⟩

end FrameDiff

namespace BoardDetector

open FrameDiff (Pt QPoint ImageData)

/-- The result record of the board detector. -/
structure BoardDetection where
  center : QPoint
  radius : ℚ
  confidence : ℚ
  blueContours : List (List Pt)
  whiteContours : List (List Pt)
  redContours : List (List Pt)

/-- An HSV range descriptor `{hMin,hMax,sMin,sMax,vMin,vMax}`. -/
structure HSVRange where
  hMin : ℚ
  hMax : ℚ
  sMin : ℚ
  sMax : ℚ
  vMin : ℚ
  vMax : ℚ

/-- `BLUE_HSV`. -/
def BLUE_HSV : HSVRange := ⟨200, 240, 50, 255, 50, 255⟩

/-- `RED_HSV`. -/
def RED_HSV : HSVRange := ⟨0, 15, 100, 255, 100, 255⟩

/-- `WHITE_HSV`. -/
def WHITE_HSV : HSVRange := ⟨0, 360, 0, 30, 200, 255⟩

/-- `TRIPLE_RING` boundaries (normalised). -/
def TRIPLE_RING : ℚ × ℚ := (0.582, 0.629)

/-- `DOUBLE_RING` boundaries (normalised). -/
def DOUBLE_RING : ℚ × ℚ := (0.953, 1.0)

/-- `MIN_BOARD_RADIUS = 100` pixels. -/
def MIN_BOARD_RADIUS : ℚ := 100

/-- `MAX_BOARD_RADIUS = 2000` pixels. -/
def MAX_BOARD_RADIUS : ℚ := 2000

/-- `MIN_CONFIDENCE = 0.5`. -/
def MIN_CONFIDENCE : ℚ := 0.5

/-- An HSV triple (this detector scales `s` and `v` to `0..255`). -/
structure HSV where
  h : ℚ
  s : ℚ
  v : ℚ

/-- `rgbToHsv` of the board detector: the standard RGB→HSV formula with
`h` in degrees and `s`, `v` scaled to `0..255`.  The `switch (max)`
statement matches the cases `r`, `g`, `b` in order. -/
def rgbToHsv (r g b : ℚ) : HSV :=
  let r' := r / 255
  let g' := g / 255
  let b' := b / 255
  let mx := max (max r' g') b'
  let mn := min (min r' g') b'
  let d := mx - mn
  let s := if mx = 0 then 0 else d / mx
  let h :=
    if mx = mn then 0
    else if mx = r' then ((g' - b') / d + (if g' < b' then 6 else 0)) / 6
    else if mx = g' then ((b' - r') / d + 2) / 6
    else ((r' - g') / d + 4) / 6
  ⟨h * 360, s * 255, mx * 255⟩

/-- `isColorPixel`: check a pixel against an HSV range.  The red branch
transcribes the JavaScript expression

`(h >= range.hMin && h <= range.hMax) || (h >= 345 && h <= 360) && hsv.s >= range.sMin && ...`

with JavaScript operator precedence: `&&` binds tighter than `||`, so the
saturation and value bounds attach only to the second (wrap-around)
disjunct, and a hue in `[hMin,hMax]` alone already matches. -/
def isColorPixel (r g b : ℚ) (range : HSVRange) : Bool :=
  let hsv := rgbToHsv r g b
  let h := if hsv.h < 0 then hsv.h + 360 else hsv.h
  if range.hMin = 0 ∧ range.hMax = 15 then
    (range.hMin ≤ h ∧ h ≤ range.hMax) ∨
      ((345 ≤ h ∧ h ≤ 360) ∧
        range.sMin ≤ hsv.s ∧ hsv.s ≤ range.sMax ∧
        range.vMin ≤ hsv.v ∧ hsv.v ≤ range.vMax)
  else
    range.hMin ≤ h ∧ h ≤ range.hMax ∧
      range.sMin ≤ hsv.s ∧ hsv.s ≤ range.sMax ∧
      range.vMin ≤ hsv.v ∧ hsv.v ≤ range.vMax

/-- One flood fill of the board detector's `findContours` (the `while`
loop; `continue` on out-of-bounds, visited, or unset pixels). -/
def floodFill (mask : List ℕ) (width height : ℕ) :
    ℕ → List Pt → List ℕ → List Pt → List Pt × List ℕ
  | 0, _, visited, contour => (contour, visited)
  | _ + 1, [], visited, contour => (contour, visited)
  | fuel + 1, p :: stack, visited, contour =>
    let pIdx := p.y * width + p.x
    if p.x < 0 ∨ (width : ℤ) ≤ p.x ∨ p.y < 0 ∨ (height : ℤ) ≤ p.y then
      floodFill mask width height fuel stack visited contour
    else if visited.getD pIdx.toNat 0 = 1 ∨ mask.getD pIdx.toNat 0 = 0 then
      floodFill mask width height fuel stack visited contour
    else
      floodFill mask width height fuel
        (⟨p.x, p.y - 1⟩ :: ⟨p.x, p.y + 1⟩ :: ⟨p.x - 1, p.y⟩ :: ⟨p.x + 1, p.y⟩ :: stack)
        (visited.set pIdx.toNat 1) (contour ++ [p])

/-- The body of the board detector's pixel scan: flood-fill each unvisited
set pixel and keep the component when its size is at least `minSize`. -/
def scanStep (mask : List ℕ) (width height minSize : ℕ)
    (acc : List ℕ × List (List Pt)) (xy : ℕ × ℕ) : List ℕ × List (List Pt) :=
  let idx := xy.2 * width + xy.1
  if mask.getD idx 0 = 255 ∧ acc.1.getD idx 0 = 0 then
    let res := floodFill mask width height (4 * width * height + 1) [⟨xy.1, xy.2⟩] acc.1 []
    if minSize ≤ res.1.length then
      (res.2, acc.2 ++ [res.1])
    else
      (res.2, acc.2)
  else
    acc

/-- The board detector's `findContours` (note: it scans only interior
pixels, `1 ≤ x ≤ width-2`, `1 ≤ y ≤ height-2`, and has a `minSize`
parameter defaulting to 50 at call sites 30/30/20). -/
def findContours (mask : List ℕ) (width height minSize : ℕ) : List (List Pt) :=
  (((List.range' 1 (height - 2)).flatMap fun y =>
      (List.range' 1 (width - 2)).map fun x => (x, y)).foldl
    (scanStep mask width height minSize) (List.replicate (width * height) 0, [])).2

/-- `fitCircle`: weighted circle refinement.  Returns `null` when fewer
than 10 points are available.  (The `tripleRingPoints`/`doubleRingPoints`
counters of the source are dead code — computed but never read — and are
omitted.)  When more than 20 red points are present, the radius is
re-estimated from the red points lying in the triple/double rings; the
centre is then refined by 5 gradient iterations over all points. -/
def fitCircle (msqrt : ℚ → ℚ) (allPoints redPoints : List Pt) (center : QPoint)
    (radius : ℚ) : Option (QPoint × ℚ) :=
  if allPoints.length < 10 then none
  else
    let radius1 :=
      if 20 < redPoints.length then
        let sc := redPoints.foldl
          (fun (sc : ℚ × ℕ) p =>
            let dx := (p.x : ℚ) - center.x
            let dy := (p.y : ℚ) - center.y
            let dist := msqrt (dx * dx + dy * dy)
            let normalizedDist := dist / radius
            if TRIPLE_RING.1 ≤ normalizedDist ∧ normalizedDist ≤ TRIPLE_RING.2 then
              (sc.1 + dist / 0.605, sc.2 + 1)
            else if DOUBLE_RING.1 ≤ normalizedDist ∧ normalizedDist ≤ DOUBLE_RING.2 then
              (sc.1 + dist / 0.9765, sc.2 + 1)
            else sc)
          (0, 0)
        if 0 < sc.2 then sc.1 / sc.2 else radius
      else radius
    let refined := (List.range 5).foldl
      (fun (c : ℚ × ℚ) _ =>
        let sums := allPoints.foldl
          (fun (s : ℚ × ℚ × ℚ) p =>
            let dx := (p.x : ℚ) - c.1
            let dy := (p.y : ℚ) - c.2
            let d := msqrt (dx * dx + dy * dy)
            if 0 < d then
              let error := d - radius1
              (s.1 + dx / d * error, s.2.1 + dy / d * error, s.2.2 + 1)
            else s)
          (0, 0, 0)
        if 0 < sums.2.2 then (c.1 + sums.1 / sums.2.2, c.2 + sums.2.1 / sums.2.2) else c)
      (center.x, center.y)
    some (⟨refined.1, refined.2⟩, radius1)

/-- `calculateConfidence`: segment count, red-ring bonus, circle-fit
quality, and size check, capped at 1. -/
def calculateConfidence (msqrt : ℚ → ℚ) (blueContours whiteContours redContours :
    List (List Pt)) (circle : Option (QPoint × ℚ)) : ℚ :=
  match circle with
  | none => 0
  | some circle =>
    let totalSegments := blueContours.length + whiteContours.length
    let segmentScore := min 1.0 ((totalSegments : ℚ) / 20)
    let c1 := segmentScore * 0.3
    let c2 := if 0 < redContours.length then min 0.3 ((redContours.length : ℚ) / 10) else 0
    let allPoints := blueContours.flatten ++ whiteContours.flatten
    let fe := allPoints.foldl
      (fun (fe : ℚ × ℕ) p =>
        let dx := (p.x : ℚ) - circle.1.x
        let dy := (p.y : ℚ) - circle.1.y
        let dist := msqrt (dx * dx + dy * dy)
        (fe.1 + |dist - circle.2|, fe.2 + 1))
      (0, 0)
    let c3 :=
      if 0 < fe.2 then
        let avgError := fe.1 / fe.2
        let normalizedError := avgError / circle.2
        max 0 (1 - normalizedError * 2) * 0.3
      else 0
    let sizeScore : ℚ :=
      if MIN_BOARD_RADIUS ≤ circle.2 ∧ circle.2 ≤ MAX_BOARD_RADIUS then 1.0 else 0.5
    min 1.0 (c1 + c2 + c3 + sizeScore * 0.1)

/-- The blue binary mask of a frame. -/
def blueMask (frame : ImageData) : List ℕ :=
  (List.range (frame.width * frame.height)).map fun j =>
    if isColorPixel (frame.data (4*j)) (frame.data (4*j+1)) (frame.data (4*j+2)) BLUE_HSV
    then 255 else 0

/-- The white binary mask of a frame. -/
def whiteMask (frame : ImageData) : List ℕ :=
  (List.range (frame.width * frame.height)).map fun j =>
    if isColorPixel (frame.data (4*j)) (frame.data (4*j+1)) (frame.data (4*j+2)) WHITE_HSV
    then 255 else 0

/-- The red binary mask of a frame. -/
def redMask (frame : ImageData) : List ℕ :=
  (List.range (frame.width * frame.height)).map fun j =>
    if isColorPixel (frame.data (4*j)) (frame.data (4*j+1)) (frame.data (4*j+2)) RED_HSV
    then 255 else 0

/-- The blue contours computed by `detectBoard` (minimum size 30). -/
def blueContoursOf (frame : ImageData) : List (List Pt) :=
  findContours (blueMask frame) frame.width frame.height 30

/-- The white contours computed by `detectBoard` (minimum size 30). -/
def whiteContoursOf (frame : ImageData) : List (List Pt) :=
  findContours (whiteMask frame) frame.width frame.height 30

/-- The red contours computed by `detectBoard` (minimum size 20). -/
def redContoursOf (frame : ImageData) : List (List Pt) :=
  findContours (redMask frame) frame.width frame.height 20

/-- `detectBoard`: multi-colour segmentation, the ≥5-segment guard,
initial centroid/average-radius estimate, `fitCircle` refinement, radius
validation against `[MIN_BOARD_RADIUS, MAX_BOARD_RADIUS]`, and the
confidence threshold. -/
def detectBoard (msqrt : ℚ → ℚ) (frame : ImageData) : Option BoardDetection :=
  let blueContours := blueContoursOf frame
  let whiteContours := whiteContoursOf frame
  let redContours := redContoursOf frame
  if blueContours.length + whiteContours.length < 5 then none
  else
    let allSegmentPoints := blueContours.flatten ++ whiteContours.flatten
    let redPoints := redContours.flatten
    let initialCenter : QPoint :=
      ⟨((allSegmentPoints.foldl (fun s p => s + p.x) 0 : ℤ) : ℚ) / allSegmentPoints.length,
       ((allSegmentPoints.foldl (fun s p => s + p.y) 0 : ℤ) : ℚ) / allSegmentPoints.length⟩
    let initialRadius :=
      (allSegmentPoints.foldl
        (fun s p =>
          let dx := (p.x : ℚ) - initialCenter.x
          let dy := (p.y : ℚ) - initialCenter.y
          s + msqrt (dx * dx + dy * dy))
        0) / allSegmentPoints.length
    match fitCircle msqrt allSegmentPoints redPoints initialCenter initialRadius with
    | none => none
    | some fitted =>
      if fitted.2 < MIN_BOARD_RADIUS ∨ MAX_BOARD_RADIUS < fitted.2 then none
      else
        let confidence := calculateConfidence msqrt blueContours whiteContours redContours
          (some fitted)
        if confidence < MIN_CONFIDENCE then none
        else
          some ⟨fitted.1, fitted.2, confidence, blueContours, whiteContours, redContours⟩

/-- `BoardDetectorSmoother.addDetection`: append an accepted detection and
drop the oldest when more than `maxHistory = 5` are stored. -/
def addDetection (detections : List BoardDetection) (detection : Option BoardDetection) :
    List BoardDetection :=
  match detection with
  | none => detections
  | some det =>
    let l := detections ++ [det]
    if 5 < l.length then l.drop 1 else l

/-- `BoardDetectorSmoother.getSmoothed`: average centre, radius and
confidence of the stored detections; contours from the latest one. -/
def getSmoothed (detections : List BoardDetection) : Option BoardDetection :=
  match detections with
  | [] => none
  | d :: ds =>
    let n : ℚ := (d :: ds).length
    let latest := (d :: ds).getLast (List.cons_ne_nil d ds)
    some
      { center := ⟨((d :: ds).foldl (fun s det => s + det.center.x) 0) / n,
                   ((d :: ds).foldl (fun s det => s + det.center.y) 0) / n⟩
        radius := ((d :: ds).foldl (fun s det => s + det.radius) 0) / n
        confidence := ((d :: ds).foldl (fun s det => s + det.confidence) 0) / n
        blueContours := latest.blueContours
        whiteContours := latest.whiteContours
        redContours := latest.redContours }

/-- The smoother state after feeding the board detections of a sequence of
frames (as the tracker does: `addDetection (detectBoard frame)` per
frame). -/
def smootherRun (msqrt : ℚ → ℚ) (frames : List ImageData) : List BoardDetection :=
  frames.foldl (fun dets frame => addDetection dets (detectBoard msqrt frame)) []

end BoardDetector

namespace MotionDetector

open FrameDiff (Pt QPoint ImageData)
open BoardDetector (BoardDetection)

/-- `MOTION_THRESHOLD = 500` changed pixels. -/
def MOTION_THRESHOLD : ℕ := 500

/-- `STABILITY_FRAMES_REQUIRED = 15`. -/
def STABILITY_FRAMES_REQUIRED : ℕ := 15

/-- `MIN_DART_AREA = 100`. -/
def MIN_DART_AREA : ℕ := 100

/-- `MAX_DART_AREA = 5000`. -/
def MAX_DART_AREA : ℕ := 5000

/-- The motion stabiliser state. -/
structure MotionState where
  isStable : Bool
  stabilityFrames : ℕ
  lastMotionArea : ℕ
  hasMotion : Bool
  deriving DecidableEq, Repr

/-- `createMotionState`. -/
def createMotionState : MotionState := ⟨false, 0, 0, false⟩

/-- Result of `detectMotion`. -/
structure Motion where
  hasMotion : Bool
  motionArea : ℕ
  deriving DecidableEq, Repr

/-- `detectMotion`, generic in how the changed area of two frames is
computed (the source calls `detectFrameDifference(...).changeArea`; the
turn tracker is verified against every implementation of this
parameter, and `detectMotionI` below instantiates it with the actual
frame differencing engine). -/
def detectMotionG {Frame : Type} (diffChangeArea : Frame → Frame → ℕ)
    (currentFrame : Frame) (previousFrame : Option Frame) : Motion :=
  match previousFrame with
  | none => ⟨false, 0⟩
  | some prev =>
    let area := diffChangeArea currentFrame prev
    ⟨decide (MOTION_THRESHOLD < area), area⟩

/-- `updateMotionState`, generic in the changed-area function: motion
resets the stability counter; otherwise it increments, and the state
becomes stable at `STABILITY_FRAMES_REQUIRED` consecutive no-motion
updates. -/
def updateMotionStateG {Frame : Type} (diffChangeArea : Frame → Frame → ℕ)
    (state : MotionState) (currentFrame : Frame) (previousFrame : Option Frame) :
    MotionState :=
  let motion := detectMotionG diffChangeArea currentFrame previousFrame
  if motion.hasMotion then
    ⟨false, 0, motion.motionArea, true⟩
  else
    let newStabilityFrames := state.stabilityFrames + 1
    ⟨decide (STABILITY_FRAMES_REQUIRED ≤ newStabilityFrames), newStabilityFrames,
      motion.motionArea, false⟩

/-- The changed area reported by the frame differencing engine. -/
def diffChangeAreaI (currentFrame previousFrame : ImageData) : ℕ :=
  (FrameDiff.detectFrameDifference currentFrame previousFrame).changeArea

/-- `detectMotion` instantiated with the actual frame differencing engine. -/
def detectMotionI (currentFrame : ImageData) (previousFrame : Option ImageData) : Motion :=
  detectMotionG diffChangeAreaI currentFrame previousFrame

/-- `updateMotionState` instantiated with the actual frame differencing
engine. -/
def updateMotionStateI (state : MotionState) (currentFrame : ImageData)
    (previousFrame : Option ImageData) : MotionState :=
  updateMotionStateG diffChangeAreaI state currentFrame previousFrame

/-- Iterated `updateMotionState` over a sequence of
(current, previous) frame pairs. -/
def motionRunI (state : MotionState) (l : List (ImageData × ImageData)) : MotionState :=
  l.foldl (fun st pr => updateMotionStateI st pr.1 (some pr.2)) state

/-- `calculateAspectRatio`: bounding-box longest/shortest side ratio; 0
for degenerate contours.  (The JavaScript initialises the bounds to
`±Infinity`; on the guarded nonempty path the fold below computes the
same min/max.) -/
def calculateAspectRatio (contour : List Pt) : ℚ :=
  if contour.length < 4 then 0
  else
    let minX := ((contour.map fun p => p.x).min?).getD 0
    let maxX := ((contour.map fun p => p.x).max?).getD 0
    let minY := ((contour.map fun p => p.y).min?).getD 0
    let maxY := ((contour.map fun p => p.y).max?).getD 0
    let width := maxX - minX
    let height := maxY - minY
    if width = 0 ∨ height = 0 then 0
    else max ((width : ℚ) / (height : ℚ)) ((height : ℚ) / (width : ℚ))

/-- The centroid of a candidate contour (`center` in
`validateDartCandidate`). -/
def dartCenter (contour : List Pt) : QPoint :=
  ⟨((contour.foldl (fun s p => s + p.x) 0 : ℤ) : ℚ) / contour.length,
   ((contour.foldl (fun s p => s + p.y) 0 : ℤ) : ℚ) / contour.length⟩

/-- The distance of the candidate centroid from the board centre (`dist`
in `validateDartCandidate`), under the given square-root
interpretation. -/
def dartCenterDist (msqrt : ℚ → ℚ) (contour : List Pt) (board : BoardDetection) : ℚ :=
  let dx := (dartCenter contour).x - board.center.x
  let dy := (dartCenter contour).y - board.center.y
  msqrt (dx * dx + dy * dy)

/-- Result of `validateDartCandidate`. -/
structure Validation where
  isValid : Bool
  confidence : ℚ
  deriving DecidableEq, Repr

/-- `validateDartCandidate`: reject when the point count is outside
`[MIN_DART_AREA, MAX_DART_AREA]`, the centroid is farther than
`1.2 × radius` from the board centre, or the bounding-box aspect ratio is
outside `[2.0, 15.0]`; otherwise accept with a confidence score. -/
def validateDartCandidate (msqrt : ℚ → ℚ) (contour : List Pt) (board : BoardDetection) :
    Validation :=
  if contour.length < MIN_DART_AREA ∨ MAX_DART_AREA < contour.length then ⟨false, 0⟩
  else
    let dist := dartCenterDist msqrt contour board
    if board.radius * 1.2 < dist then ⟨false, 0⟩
    else
      let aspectRatio := calculateAspectRatio contour
      if aspectRatio < 2.0 ∨ 15.0 < aspectRatio then ⟨false, 0⟩
      else
        let c1 : ℚ := if 3 ≤ aspectRatio ∧ aspectRatio ≤ 10 then 0.3 else 0
        let normalizedDist := dist / board.radius
        let c2 : ℚ := if normalizedDist < 0.8 then 0.2 else 0
        ⟨true, 0.5 + c1 + c2⟩

/-- `findDartTip` of the motion detector: the contour point closest to
the board centre (`minDist` starts at `Infinity`, modelled with an
`Option`; `tip` starts at `contour[0]`). -/
def findDartTip (msqrt : ℚ → ℚ) (contour : List Pt) (board : BoardDetection) : Pt :=
  (contour.foldl
    (fun (acc : Option ℚ × Pt) p =>
      let dx := (p.x : ℚ) - board.center.x
      let dy := (p.y : ℚ) - board.center.y
      let dist := msqrt (dx * dx + dy * dy)
      match acc.1 with
      | none => (some dist, p)
      | some minDist => if dist < minDist then (some dist, p) else acc)
    (none, contour.headD ⟨0, 0⟩)).2

/-- A dart candidate. -/
structure DartCandidate where
  tip : Pt
  contour : List Pt
  area : ℕ
  aspectRatio : ℚ
  confidence : ℚ

/-- `detectNewDart`: difference the current frame against the reference,
validate the largest contour as a dart, and return the candidate with its
tip, area, aspect ratio and confidence (`null` when there is no contour
or validation fails). -/
def detectNewDart (msqrt : ℚ → ℚ) (currentFrame referenceFrame : ImageData)
    (board : BoardDetection) : Option DartCandidate :=
  match (FrameDiff.detectFrameDifference currentFrame referenceFrame).largestContour with
  | none => none
  | some contour =>
    let validation := validateDartCandidate msqrt contour board
    if validation.isValid then
      some ⟨findDartTip msqrt contour board, contour, contour.length,
        calculateAspectRatio contour, validation.confidence⟩
    else none

end MotionDetector


namespace BoardMapper

/-- A point with real coordinates (the board mapper works on normalised
positions; its floating-point arithmetic is modelled over `ℝ`). -/
structure RPoint where
  x : ℝ
  y : ℝ

/-- Polar coordinates: angle in degrees (0 = up, clockwise), normalised
distance. -/
structure Polar where
  angle : ℝ
  distance : ℝ

/-- The mapper's result record. -/
structure DetectionResult where
  segment : ℕ
  multiplier : ℕ
  points : ℕ
  confidence : ℝ
  dartPosition : RPoint
  normalizedPosition : RPoint

/-- `SEGMENT_ORDER`: dartboard segments clockwise from 12 o'clock. -/
def SEGMENT_ORDER : List ℕ :=
  [20, 1, 18, 4, 13, 6, 10, 15, 2, 17, 3, 19, 7, 16, 8, 11, 14, 9, 12, 5]

/-- A ring's inner/outer boundary (normalised to radius 1). -/
structure RingRange where
  inner : ℝ
  outer : ℝ

/-- `RING_BOUNDARIES.bullseye`. -/
noncomputable def RING_BOUNDARIES_bullseye : RingRange := ⟨0, 0.037⟩

/-- `RING_BOUNDARIES.bull`. -/
noncomputable def RING_BOUNDARIES_bull : RingRange := ⟨0.037, 0.093⟩

/-- `RING_BOUNDARIES.innerSingle`. -/
noncomputable def RING_BOUNDARIES_innerSingle : RingRange := ⟨0.093, 0.582⟩

/-- `RING_BOUNDARIES.triple`. -/
noncomputable def RING_BOUNDARIES_triple : RingRange := ⟨0.582, 0.629⟩

/-- `RING_BOUNDARIES.outerSingle`. -/
noncomputable def RING_BOUNDARIES_outerSingle : RingRange := ⟨0.629, 0.953⟩

/-- `RING_BOUNDARIES.double`. -/
noncomputable def RING_BOUNDARIES_double : RingRange := ⟨0.953, 1.0⟩

/-- `Math.atan2 y x`: the argument of the complex number `x + y·i`, in
`(-π, π]`. -/
noncomputable def atan2 (y x : ℝ) : ℝ := Complex.arg ⟨x, y⟩

/-- `toPolar`: distance from the origin, and angle from the positive
Y axis (up) measured clockwise, normalised to `[0, 360)` by adding 360 to
negative angles. -/
noncomputable def toPolar (point : RPoint) : Polar :=
  let distance := Real.sqrt (point.x * point.x + point.y * point.y)
  let angle0 := atan2 point.x (-point.y) * (180 / Real.pi)
  ⟨if angle0 < 0 then angle0 + 360 else angle0, distance⟩

/-- `getSegmentFromAngle`: offset by half a wedge (9°), wrap at 360, and
index `SEGMENT_ORDER` by the 18°-wedge number (`Math.floor`; an
out-of-range JavaScript index reads `undefined`, modelled with default
0). -/
noncomputable def getSegmentFromAngle (angle : ℝ) : ℕ :=
  let adjustedAngle := angle + 9
  let adjusted := if 360 ≤ adjustedAngle then adjustedAngle - 360 else adjustedAngle
  SEGMENT_ORDER.getD (⌊adjusted / 18⌋).toNat 0

/-- The ring kinds of `getRingFromDistance`. -/
inductive RingKind
  | bullseye
  | bull
  | triple
  | double
  | single
  | miss
  deriving DecidableEq, Repr

/-- Result of `getRingFromDistance`. -/
structure RingInfo where
  ring : RingKind
  multiplier : ℕ
  isBull : Bool
  deriving DecidableEq, Repr

/-- `getRingFromDistance`: ring lookup by normalised distance against the
fixed boundaries, in source order. -/
noncomputable def getRingFromDistance (normalizedDistance : ℝ) : RingInfo :=
  if normalizedDistance ≤ RING_BOUNDARIES_bullseye.outer then ⟨.bullseye, 1, true⟩
  else if normalizedDistance ≤ RING_BOUNDARIES_bull.outer then ⟨.bull, 1, true⟩
  else if normalizedDistance ≤ RING_BOUNDARIES_triple.inner then ⟨.single, 1, false⟩
  else if normalizedDistance ≤ RING_BOUNDARIES_triple.outer then ⟨.triple, 3, false⟩
  else if normalizedDistance ≤ RING_BOUNDARIES_double.inner then ⟨.single, 1, false⟩
  else if normalizedDistance ≤ RING_BOUNDARIES_double.outer then ⟨.double, 2, false⟩
  else ⟨.miss, 1, false⟩

/-- `mapToSegment`: polar conversion, ring lookup, and assembly of the
result (miss → segment 0 and 0 points; bull/bullseye → 25/50 with
multiplier 1; otherwise segment from the angle and
`points = segment × multiplier`). -/
noncomputable def mapToSegment (normalizedPoint dartPosition : RPoint) (confidence : ℝ) :
    DetectionResult :=
  let polar := toPolar normalizedPoint
  let ringInfo := getRingFromDistance polar.distance
  if ringInfo.ring = RingKind.miss then
    ⟨0, 1, 0, confidence, dartPosition, normalizedPoint⟩
  else if ringInfo.isBull then
    let points := if ringInfo.ring = RingKind.bullseye then 50 else 25
    ⟨points, 1, points, confidence, dartPosition, normalizedPoint⟩
  else
    let segment := getSegmentFromAngle polar.angle
    ⟨segment, ringInfo.multiplier, segment * ringInfo.multiplier, confidence, dartPosition,
      normalizedPoint⟩

/-- Constructed for the spec's round-trip claim: the normalised point at
a clockwise angle of `angleDeg` degrees from 12 o'clock, at distance
`dist` from the centre (so `x = d·sin θ`, `y = -d·cos θ` in the mapper's
screen coordinates, where y grows downward). -/
noncomputable def pointAtPolar (angleDeg dist : ℝ) : RPoint :=
  ⟨dist * Real.sin (angleDeg * Real.pi / 180), -(dist * Real.cos (angleDeg * Real.pi / 180))⟩

/-- Constructed for the spec's round-trip claim: the centre angle of
segment `s`'s wedge: wedge `i` (the position of `s` in `SEGMENT_ORDER`)
spans `[18i - 9, 18i + 9)` degrees, so its centre is at `18i`. -/
def wedgeCenterAngleDeg (s : ℕ) : ℕ := 18 * SEGMENT_ORDER.indexOf s

/-- Constructed for the spec's round-trip claim: the mid-distance of the
ring corresponding to multiplier `m` (triple ring for 3, double ring for
2, inner single for 1). -/
noncomputable def ringMidDistance (m : ℕ) : ℝ :=
  if m = 3 then (0.582 + 0.629) / 2
  else if m = 2 then (0.953 + 1.0) / 2
  else (0.093 + 0.582) / 2

end BoardMapper


namespace Tracker

/-!
The `DartTracker` class (turn tracking over continuous detection).  The
vision subsystem it calls — board detection/smoothing, frame
differencing, `detectNewDart` plus `mapToSegment` — is supplied through
parameters (`diffChangeArea`, `getSmoothedB`, and the per-tick
observation's `boardDetection` and `candidate` fields), so every theorem
holds for all implementations of those calls; the tracker's own control
flow (state machine, reference-frame bookkeeping, debouncing, timers) is
translated directly.  `setTimeout` callbacks are modelled as pending
timers that fire at the start of the first step whose time has reached
their schedule (timers are never late).  Persistence of the reference
frame as a data URL, and capture failures of the *current* frame in the
tick loop (which merely skip the tick), are not modelled; the
post-confirmation reference capture may fail (`Option`), exactly as
`this.referenceFrame = captureFrame(...)` may store `null`.
-/

/-- The tracker states. -/
inductive TState
  | idle
  | noBoard
  | waitingDart1
  | waitingDart2
  | waitingDart3
  | turnComplete
  | waitingRemoval
  deriving DecidableEq, Repr

/-- `state.startsWith('waiting-dart-')`. -/
def TState.isWaitingDart : TState → Bool
  | .waitingDart1 => true
  | .waitingDart2 => true
  | .waitingDart3 => true
  | _ => false

/-- The tracker's callback invocations. -/
inductive TEvent (Dart : Type) where
  | dartDetected (dart : Dart) (dartNumber : ℕ)
  | turnComplete (darts : List Dart)
  | stateChange (state : TState)
  | boardDetected (detected : Bool)
  | motionStatus (status : String)

/-- Whether an event is an `onTurnComplete` invocation. -/
def isTurnCompleteEv {Dart : Type} : TEvent Dart → Bool
  | .turnComplete _ => true
  | _ => false

/-- `DETECTION_DEBOUNCE_MS = 1500`. -/
def DETECTION_DEBOUNCE_MS : ℕ := 1500

/-- `REMOVAL_THRESHOLD = 100`. -/
def REMOVAL_THRESHOLD : ℕ := 100

/-- The tracker's mutable fields.  `pendingRemovalAt`/`pendingStartAt`
are the scheduled times of the two `setTimeout(…, 1000)` callbacks
(turn-complete → waiting-removal, and idle → auto `startTurn`). -/
structure TrackerSt (Frame Board Dart : Type) where
  state : TState
  referenceFrame : Option Frame
  previousFrame : Option Frame
  detectedDarts : List Dart
  boardHistory : List Board
  currentBoard : Option Board
  motionState : MotionDetector.MotionState
  lastDetectionTime : ℕ
  pendingRemovalAt : Option ℕ
  pendingStartAt : Option ℕ

/-- The tracker's initial state (fresh object, `idle`, no darts). -/
def initialState {Frame Board Dart : Type} : TrackerSt Frame Board Dart :=
  ⟨.idle, none, none, [], [], none, MotionDetector.createMotionState, 0, none, none⟩

/-- What one iteration of the detect loop observes: the captured current
frame, the result of `detectBoard` on it, the outcome of
`detectNewDart` + `mapToSegment` against the current reference (a
confidence and the mapped dart), and the frame captured right after a
confirmed dart (`null` when that capture fails). -/
structure FrameObs (Frame Board Dart : Type) where
  frame : Frame
  boardDetection : Option Board
  candidate : Option (ℚ × Dart)
  postDartFrame : Option Frame

/-- The actions driving the tracker: a detect-loop tick, a (user or
auto) `startTurn()` whose capture yields `captured`, and `reset()`. -/
inductive TAction (Frame Board Dart : Type) where
  | tick (obs : FrameObs Frame Board Dart) (now : ℕ)
  | startTurn (captured : Option Frame) (now : ℕ)
  | reset (now : ℕ)

/-- `BoardDetectorSmoother.addDetection` for an accepted detection
(generic board type; same push-and-shift as the smoother). -/
def addDetectionG {Board : Type} (history : List Board) (b : Board) : List Board :=
  let l := history ++ [b]
  if 5 < l.length then l.drop 1 else l

section TrackerModel

variable {Frame Board Dart : Type}
variable (diffChangeArea : Frame → Frame → ℕ) (getSmoothedB : List Board → Option Board)

/-- The body of `startTurn()` after its 500 ms wait: capture the
reference frame (the assignment happens even when capture fails, and a
failed capture aborts the rest), clear the darts, reset motion, and go
to `no-board`. -/
def startTurnCore (s : TrackerSt Frame Board Dart) (captured : Option Frame) :
    TrackerSt Frame Board Dart × List (TEvent Dart) :=
  match captured with
  | none => ({ s with referenceFrame := none }, [])
  | some f =>
    ({ s with
        referenceFrame := some f
        detectedDarts := []
        motionState := MotionDetector.createMotionState
        previousFrame := none
        state := .noBoard },
      [.stateChange .noBoard])

/-- Fire the turn-complete → waiting-removal `setTimeout` callback when
its scheduled time has been reached (the callback sets the state
unconditionally, as in the source). -/
def fireRemovalTimer (s : TrackerSt Frame Board Dart) (now : ℕ) :
    TrackerSt Frame Board Dart × List (TEvent Dart) :=
  match s.pendingRemovalAt with
  | some t =>
    if t ≤ now then
      ({ s with
          state := .waitingRemoval
          pendingRemovalAt := none },
        [TEvent.stateChange .waitingRemoval])
    else (s, [])
  | none => (s, [])

/-- Fire the auto-`startTurn` `setTimeout` callback when its scheduled
time has been reached. -/
def fireStartTimer (s : TrackerSt Frame Board Dart) (now : ℕ) (captured : Option Frame) :
    TrackerSt Frame Board Dart × List (TEvent Dart) :=
  match s.pendingStartAt with
  | some t =>
    if t ≤ now then startTurnCore { s with pendingStartAt := none } captured
    else (s, [])
  | none => (s, [])

/-- Fire the due `setTimeout` callbacks: turn-complete → waiting-removal,
then the auto-`startTurn`. -/
def fireDueTimers (s : TrackerSt Frame Board Dart) (now : ℕ) (captured : Option Frame) :
    TrackerSt Frame Board Dart × List (TEvent Dart) :=
  let r1 := fireRemovalTimer s now
  let r2 := fireStartTimer r1.1 now captured
  (r2.1, r1.2 ++ r2.2)

/-- `detectStabilizedDart`: guard on board/reference, debounce, check the
candidate's confidence, append the dart, advance the reference frame to
the post-confirmation capture, reset motion, advance the state, and on
the third dart fire `onTurnComplete` and schedule the
waiting-removal transition. -/
def detectStabilizedDart (s : TrackerSt Frame Board Dart)
    (obs : FrameObs Frame Board Dart) (now : ℕ) :
    TrackerSt Frame Board Dart × List (TEvent Dart) :=
  match s.currentBoard, s.referenceFrame with
  | some _, some _ =>
    if now < s.lastDetectionTime + DETECTION_DEBOUNCE_MS then (s, [])
    else
      match obs.candidate with
      | some cand =>
        if ((1 : ℚ)/2) < cand.1 then
          let darts := s.detectedDarts ++ [cand.2]
          let n := darts.length
          let sA := { s with
            detectedDarts := darts
            lastDetectionTime := now
            referenceFrame := obs.postDartFrame
            motionState := MotionDetector.createMotionState }
          if n = 1 then
            ({ sA with state := .waitingDart2 },
              [.dartDetected cand.2 n, .stateChange .waitingDart2])
          else if n = 2 then
            ({ sA with state := .waitingDart3 },
              [.dartDetected cand.2 n, .stateChange .waitingDart3])
          else if n = 3 then
            ({ sA with
              state := .turnComplete
              pendingRemovalAt := some (now + 1000) },
              [.dartDetected cand.2 n, .turnComplete darts, .stateChange .turnComplete])
          else
            (sA, [.dartDetected cand.2 n, .stateChange sA.state])
        else (s, [])
      | none => (s, [])
  | _, _ => (s, [])

/-- Step 1 of `detectLoop`: board detection and smoothing, with the
`no-board` transitions. -/
def boardPhase (s : TrackerSt Frame Board Dart) (obs : FrameObs Frame Board Dart) :
    TrackerSt Frame Board Dart × List (TEvent Dart) :=
  match obs.boardDetection with
  | some b =>
    let hist := addDetectionG s.boardHistory b
    match getSmoothedB hist with
    | some sm =>
      let s' := { s with
        boardHistory := hist
        currentBoard := some sm }
      if s'.state = TState.noBoard then
        ({ s' with state := .waitingDart1 },
          [TEvent.boardDetected true, .stateChange .waitingDart1])
      else (s', [TEvent.boardDetected true])
    | none => ({ s with boardHistory := hist }, [])
  | none =>
    if s.state ≠ TState.idle ∧ s.state ≠ TState.waitingRemoval then
      ({ s with state := .noBoard }, [TEvent.boardDetected false, .stateChange .noBoard])
    else (s, [TEvent.boardDetected false])

/-- Step 2 of `detectLoop`: motion update and stabilised-dart detection
in the waiting-dart states. -/
def motionPhase (s : TrackerSt Frame Board Dart) (obs : FrameObs Frame Board Dart)
    (now : ℕ) : TrackerSt Frame Board Dart × List (TEvent Dart) :=
  if s.currentBoard.isSome ∧ s.referenceFrame.isSome ∧ s.state.isWaitingDart then
    let ms := MotionDetector.updateMotionStateG diffChangeArea s.motionState obs.frame
      s.previousFrame
    let s' := { s with motionState := ms }
    if ms.hasMotion then (s', [TEvent.motionStatus "Motion detected..."])
    else if ms.isStable then
      let r := detectStabilizedDart s' obs now
      (r.1, TEvent.motionStatus "Dart landed!" :: r.2)
    else (s', [TEvent.motionStatus "Waiting for dart..."])
  else (s, [])

/-- Step 3 of `detectLoop`: in `waiting-removal`, compare the current
frame against the stored reference frame and go idle (scheduling the
auto-`startTurn`) when the changed area is below `REMOVAL_THRESHOLD`.
Note the reference frame used here is the tracker's single
`referenceFrame` field. -/
def removalPhase (s : TrackerSt Frame Board Dart) (obs : FrameObs Frame Board Dart)
    (now : ℕ) : TrackerSt Frame Board Dart × List (TEvent Dart) :=
  if s.state = TState.waitingRemoval then
    match s.referenceFrame with
    | some rf =>
      if diffChangeArea obs.frame rf < REMOVAL_THRESHOLD then
        ({ s with
            state := .idle
            pendingStartAt := some (now + 1000) },
          [TEvent.stateChange .idle])
      else (s, [])
    | none => (s, [])
  else (s, [])

/-- One iteration of `detectLoop`: the three steps followed by the
previous-frame update. -/
def tickCore (s : TrackerSt Frame Board Dart) (obs : FrameObs Frame Board Dart)
    (now : ℕ) : TrackerSt Frame Board Dart × List (TEvent Dart) :=
  let r1 := boardPhase getSmoothedB s obs
  let r2 := motionPhase diffChangeArea r1.1 obs now
  let r3 := removalPhase diffChangeArea r2.1 obs now
  ({ r3.1 with previousFrame := some obs.frame }, r1.2 ++ r2.2 ++ r3.2)

/-- `reset()`: back to `idle` with everything cleared — except the
pending timers, which the source never cancels. -/
def resetCore (s : TrackerSt Frame Board Dart) :
    TrackerSt Frame Board Dart × List (TEvent Dart) :=
  ({ s with
      state := .idle
      detectedDarts := []
      referenceFrame := none
      previousFrame := none
      currentBoard := none
      motionState := MotionDetector.createMotionState
      lastDetectionTime := 0 },
    [TEvent.stateChange .idle])

/-- One step of the tracker: fire due timers, then run the action. -/
def stepT (s : TrackerSt Frame Board Dart) (a : TAction Frame Board Dart) :
    TrackerSt Frame Board Dart × List (TEvent Dart) :=
  match a with
  | .tick obs now =>
    let r0 := fireDueTimers s now (some obs.frame)
    let r1 := tickCore diffChangeArea getSmoothedB r0.1 obs now
    (r1.1, r0.2 ++ r1.2)
  | .startTurn captured now =>
    let r0 := fireDueTimers s now captured
    let r1 := startTurnCore r0.1 captured
    (r1.1, r0.2 ++ r1.2)
  | .reset now =>
    let r0 := fireDueTimers s now none
    let r1 := resetCore r0.1
    (r1.1, r0.2 ++ r1.2)

/-- The reachable tracker states. -/
inductive ReachableT : TrackerSt Frame Board Dart → Prop where
  | init : ReachableT initialState
  | step (s : TrackerSt Frame Board Dart) (a : TAction Frame Board Dart) :
      ReachableT s → ReachableT (stepT diffChangeArea getSmoothedB s a).1

/-- The turn invariant: at most 3 darts, and with 3 darts the tracker is
either past the turn (`waiting-removal`/`idle`) or the waiting-removal
transition is still scheduled for 1000 ms after the third detection. -/
def dartInv (s : TrackerSt Frame Board Dart) : Prop :=
  s.detectedDarts.length ≤ 3 ∧
  (s.detectedDarts.length = 3 →
    s.pendingRemovalAt = some (s.lastDetectionTime + 1000) ∨
    s.state = TState.waitingRemoval ∨ s.state = TState.idle)

/-- The per-phase correctness contract relating a pre-state and a
phase's (post-state, emitted events): the dart invariant holds after;
`onTurnComplete` fires in the phase exactly when the third dart was
appended by it; every `onTurnComplete` carries the post-state's dart
list, of length exactly 3, with the post-state at `turn-complete`;
appending the third dart always fires it; and at most one dart is
appended. -/
def StepSpec (s : TrackerSt Frame Board Dart)
    (r : TrackerSt Frame Board Dart × List (TEvent Dart)) : Prop :=
  dartInv r.1 ∧
  r.2.countP isTurnCompleteEv =
    (if s.detectedDarts.length = 2 ∧ r.1.detectedDarts.length = 3 then 1 else 0) ∧
  (∀ ds, TEvent.turnComplete ds ∈ r.2 →
    ds = r.1.detectedDarts ∧ ds.length = 3 ∧ r.1.state = TState.turnComplete ∧
      s.detectedDarts.length = 2) ∧
  (s.detectedDarts.length = 2 → r.1.detectedDarts.length = 3 →
    r.1.state = TState.turnComplete ∧ TEvent.turnComplete r.1.detectedDarts ∈ r.2) ∧
  r.1.detectedDarts.length ≤ s.detectedDarts.length + 1

/-- Run the tracker from `s` over a list of actions (final state). -/
def runT (s : TrackerSt Frame Board Dart) (acts : List (TAction Frame Board Dart)) :
    TrackerSt Frame Board Dart :=
  acts.foldl (fun st a => (stepT diffChangeArea getSmoothedB st a).1) s

end TrackerModel


/-- Concrete changed-area function for the C1 trace: two frames (coded
as naturals) differ by 1000 changed pixels unless they are the same
scene. -/
def c1Diff : ℕ → ℕ → ℕ := fun c r => if c = r then 0 else 1000

/-- Concrete board smoother for the C1 trace: always locks onto a board. -/
def c1Smooth : List ℕ → Option ℕ := fun _ => some 0

/-- One detect-loop observation of scene `f` for the C1 trace: board
detected, a full-confidence dart candidate available, post-dart capture
succeeding (and showing the same scene `f`). -/
def c1Obs (f : ℕ) : FrameObs ℕ ℕ ℕ := ⟨f, some 0, some (1, 7), some f⟩

/-- `n` detect-loop ticks of scene `f` starting at time `t0`, 2000 ms
apart, for the C1 trace. -/
def c1Phase (f t0 n : ℕ) : List (TAction ℕ ℕ ℕ) :=
  (List.range n).map (fun i => TAction.tick (c1Obs f) (t0 + 2000 * i))

/-- The C1 trace: `startTurn` captures the empty board (scene `0`);
scene `100` (dart 1 in place) is observed for 15 ticks, so the
stabiliser confirms dart 1 on the 15th; likewise scenes `101` and `102`
for darts 2 and 3 (one extra tick each for the motion frame). -/
def c1Actions : List (TAction ℕ ℕ ℕ) :=
  TAction.startTurn (some 0) 0 ::
    (c1Phase 100 2000 15 ++ c1Phase 101 32000 16 ++ c1Phase 102 64000 16)

/-- Tracker state after the C1 trace: turn complete, 3 darts, the
waiting-removal transition scheduled. -/
def c1Pre : TrackerSt ℕ ℕ ℕ := runT c1Diff c1Smooth initialState c1Actions

/-- One more tick at 96000 ms — the removal timer has fired, and the
current frame still shows all 3 darts (scene `102`, unchanged). -/
def c1Final : TrackerSt ℕ ℕ ℕ :=
  (stepT c1Diff c1Smooth c1Pre (TAction.tick (c1Obs 102) 96000)).1

end Tracker


/-! ### Theorems -/

namespace FrameDiff

theorem largestStep_go (l : List (List Pt)) (acc : Option (List Pt) × ℕ)
    (hacc : acc.2 = (acc.1.map List.length).getD 0) :
    (l.foldl largestStep acc).2 = ((l.foldl largestStep acc).1.map List.length).getD 0 ∧
    acc.2 ≤ (l.foldl largestStep acc).2 ∧
    (∀ c ∈ l, c.length ≤ (l.foldl largestStep acc).2) ∧
    ((l.foldl largestStep acc).1 = acc.1 ∨ ∃ c ∈ l, (l.foldl largestStep acc).1 = some c) := by
  induction l generalizing acc with
  | nil => exact ⟨hacc, le_refl _, by simp, Or.inl rfl⟩
  | cons a l ih =>
    simp only [List.foldl_cons]
    have hstep : (largestStep acc a).2 = ((largestStep acc a).1.map List.length).getD 0 := by
      unfold largestStep
      split
      · rfl
      · exact hacc
    obtain ⟨h1, h2, h3, h4⟩ := ih (largestStep acc a) hstep
    have hmono : acc.2 ≤ (largestStep acc a).2 := by
      unfold largestStep
      split
      · omega
      · exact le_refl _
    have ha : a.length ≤ (largestStep acc a).2 := by
      unfold largestStep
      split
      · exact le_refl _
      · omega
    refine ⟨h1, le_trans hmono h2, ?_, ?_⟩
    · intro c hc
      rcases List.mem_cons.mp hc with rfl | hc
      · exact le_trans ha h2
      · exact h3 c hc
    · rcases h4 with h4 | ⟨c, hc, h4⟩
      · by_cases hlt : acc.2 < a.length
        · refine Or.inr ⟨a, List.mem_cons_self a l, ?_⟩
          rw [h4]
          unfold largestStep
          simp [hlt]
        · left
          rw [h4]
          unfold largestStep
          simp [hlt]
      · exact Or.inr ⟨c, List.mem_cons_of_mem a hc, h4⟩

theorem scanStep_preserves {binary : List ℕ} {width height : ℕ}
    {acc : List ℕ × List (List Pt)} {xy : ℕ × ℕ}
    (hacc : ∀ c ∈ acc.2, MIN_CONTOUR_AREA ≤ c.length ∧ c.length ≤ MAX_CONTOUR_AREA) :
    ∀ c ∈ (scanStep binary width height acc xy).2,
      MIN_CONTOUR_AREA ≤ c.length ∧ c.length ≤ MAX_CONTOUR_AREA := by
  intro c hc
  unfold scanStep at hc
  dsimp only at hc
  split at hc
  · split at hc
    next h =>
      rcases List.mem_append.mp hc with hm | hm
      · exact hacc c hm
      · simp only [List.mem_singleton] at hm
        subst hm
        exact h
    next => exact hacc c hc
  · exact hacc c hc

theorem findContours_mem_len {binary : List ℕ} {width height : ℕ} {c : List Pt}
    (hc : c ∈ findContours binary width height) :
    MIN_CONTOUR_AREA ≤ c.length ∧ c.length ≤ MAX_CONTOUR_AREA := by
  unfold findContours at hc
  revert hc
  generalize ((List.range height).flatMap fun y =>
    (List.range width).map fun x => (x, y)) = scan
  generalize hini : ((List.replicate binary.length 0 : List ℕ), ([] : List (List Pt))) = ini
  have hbase : ∀ c ∈ ini.2, MIN_CONTOUR_AREA ≤ c.length ∧ c.length ≤ MAX_CONTOUR_AREA := by
    rw [← hini]
    simp
  clear hini
  intro hc
  induction scan generalizing ini with
  | nil => exact hbase c hc
  | cons xy scan ih =>
    rw [List.foldl_cons] at hc
    exact ih (scanStep binary width height ini xy) (scanStep_preserves hbase) hc

set_option maxRecDepth 4000 in
set_option maxHeartbeats 1600000 in
unseal Rat.add Rat.mul Rat.sub Rat.inv in
/-- C2, as stated, is false: the claim asserts `changeArea` equals the
total changed-pixel count of the cleaned difference mask, but on
`blockFrame8` vs `blackFrame8` the mask has 25 changed pixels while the
returned `changeArea` is 0 (the 25-pixel component is filtered out by
`MIN_CONTOUR_AREA`, and `changeArea` only counts the largest surviving
contour). -/
theorem C2_counterexample :
    (detectFrameDifference blockFrame8 blackFrame8).changeArea = 0 ∧
    specTotalChangedPixels blockFrame8 blackFrame8 = 25 ∧
    (detectFrameDifference blockFrame8 blackFrame8).changeArea ≠
      specTotalChangedPixels blockFrame8 blackFrame8 ∧
    (detectFrameDifference blockFrame8 blackFrame8).largestContour = none := by
  decide

/-- C2 (amended): `changeArea` equals the point count of the largest
qualifying contour of the cleaned difference mask (0 when none
qualifies, not the total changed-pixel count); the result carries the
single largest contour by point count together with its centroid, and
when no contour qualifies `largestContour` is `null` with zero area. -/
theorem C2_amended (currentFrame referenceFrame : ImageData) :
    (detectFrameDifference currentFrame referenceFrame).changeArea =
      (((detectFrameDifference currentFrame referenceFrame).largestContour).map
        List.length).getD 0 ∧
    (∀ c ∈ cleanedContours currentFrame referenceFrame,
      c.length ≤ (detectFrameDifference currentFrame referenceFrame).changeArea) ∧
    ((∃ c ∈ cleanedContours currentFrame referenceFrame,
        (detectFrameDifference currentFrame referenceFrame).largestContour = some c) ∨
      ((detectFrameDifference currentFrame referenceFrame).largestContour = none ∧
        cleanedContours currentFrame referenceFrame = [] ∧
        (detectFrameDifference currentFrame referenceFrame).changeArea = 0)) ∧
    (detectFrameDifference currentFrame referenceFrame).centerOfMass =
      ((detectFrameDifference currentFrame referenceFrame).largestContour).map
        calculateCenterOfMass := by
  have e1 : (detectFrameDifference currentFrame referenceFrame).changeArea =
      (largestFold (cleanedContours currentFrame referenceFrame)).2 := rfl
  have e2 : (detectFrameDifference currentFrame referenceFrame).largestContour =
      (largestFold (cleanedContours currentFrame referenceFrame)).1 := rfl
  have e3 : (detectFrameDifference currentFrame referenceFrame).centerOfMass =
      (largestFold (cleanedContours currentFrame referenceFrame)).1.map
        calculateCenterOfMass := rfl
  obtain ⟨h1, _, h3, h4⟩ := largestStep_go (cleanedContours currentFrame referenceFrame)
    (none, 0) rfl
  rw [show (cleanedContours currentFrame referenceFrame).foldl largestStep (none, 0) =
    largestFold (cleanedContours currentFrame referenceFrame) from rfl] at h1 h3 h4
  refine ⟨by rw [e1, e2]; exact h1, ?_, ?_, by rw [e3, e2]⟩
  · intro c hc
    rw [e1]
    exact h3 c hc
  · rcases h4 with h4 | ⟨c, hc, h4⟩
    · right
      have hempty : cleanedContours currentFrame referenceFrame = [] := by
        rcases hl : cleanedContours currentFrame referenceFrame with _ | ⟨c, l⟩
        · rfl
        · exfalso
          have hmem : c ∈ cleanedContours currentFrame referenceFrame := by
            rw [hl]
            exact List.mem_cons_self c l
          have hmin := findContours_mem_len hmem
          have hle := h3 c hmem
          rw [h4] at h1
          simp only [Option.map_none', Option.getD_none] at h1
          rw [h1] at hle
          have h50 : MIN_CONTOUR_AREA ≤ (0 : ℕ) := le_trans hmin.1 hle
          simp [MIN_CONTOUR_AREA] at h50
      have hzero : (largestFold (cleanedContours currentFrame referenceFrame)).2 = 0 := by
        rw [h4] at h1
        simpa using h1
      exact ⟨by rw [e2]; exact h4, hempty, by rw [e1]; exact hzero⟩
    · exact Or.inl ⟨c, hc, by rw [e2]; exact h4⟩

unseal Rat.add Rat.mul Rat.sub Rat.inv in
/-- Witness for `C2_amended` at a concrete input: at `blockFrame8` vs
`blackFrame8` no contour qualifies, so `changeArea` is the point count of
the (absent) largest contour, i.e. 0. -/
theorem C2_amended_witness :
    (detectFrameDifference blockFrame8 blackFrame8).changeArea =
      (((detectFrameDifference blockFrame8 blackFrame8).largestContour).map
        List.length).getD 0 :=
  (C2_amended blockFrame8 blackFrame8).1


end FrameDiff

namespace BoardDetector

unseal Rat.add Rat.mul Rat.sub Rat.inv in
/-- C3 is right about the wrap-around but wrong about the bounds: the red
classifier, due to JavaScript `&&`/`||` precedence, accepts any pixel
whose hue lies in `[0,15]` even when saturation or value is out of
bounds.  RGB `(10,0,0)` has hue 0, saturation 255, but value 10 — far
below `RED_HSV.vMin = 100` — yet `isColorPixel` classifies it as red,
contradicting the claim (and the spec's "all bounds are satisfied", and
the source's own intent of checking the full range).  The wrap-around
half of the claim does hold: RGB `(255,0,17)` has hue 356° ≥ 345° with
in-range saturation and value and is classified red. -/
theorem C3_precedence_bug :
    isColorPixel 10 0 0 RED_HSV = true ∧
    (rgbToHsv 10 0 0).v = 10 ∧
    RED_HSV.vMin = 100 ∧
    ¬((rgbToHsv 10 0 0).v ≥ RED_HSV.vMin ∧ (rgbToHsv 10 0 0).v ≤ RED_HSV.vMax) ∧
    isColorPixel 255 0 17 RED_HSV = true ∧
    (rgbToHsv 255 0 17).h = 356 ∧
    RED_HSV.sMin ≤ (rgbToHsv 255 0 17).s ∧ (rgbToHsv 255 0 17).s ≤ RED_HSV.sMax ∧
    RED_HSV.vMin ≤ (rgbToHsv 255 0 17).v ∧ (rgbToHsv 255 0 17).v ≤ RED_HSV.vMax := by
  decide

/-- C10: when the blue and white masks together yield fewer than 5
contours after the minimum-size filter, `detectBoard` returns `None`,
whatever those contours look like. -/
theorem C10_few_contours_no_board (msqrt : ℚ → ℚ) (frame : FrameDiff.ImageData)
    (h : (blueContoursOf frame).length + (whiteContoursOf frame).length < 5) :
    detectBoard msqrt frame = none := by
  unfold detectBoard
  dsimp only
  rw [if_pos h]

/-- Witness for `C10_few_contours_no_board`: the 2×2 black frame has no
contours at all. -/
theorem C10_witness :
    detectBoard (fun _ => 0) FrameDiff.tinyBlackFrame = none :=
  C10_few_contours_no_board (fun _ => 0) FrameDiff.tinyBlackFrame (by decide)

theorem detectBoard_radius_bounds (msqrt : ℚ → ℚ) (frame : FrameDiff.ImageData)
    (det : BoardDetection) (hdet : detectBoard msqrt frame = some det) :
    MIN_BOARD_RADIUS ≤ det.radius ∧ det.radius ≤ MAX_BOARD_RADIUS := by
  unfold detectBoard at hdet
  dsimp only at hdet
  split at hdet
  · exact absurd hdet (by simp)
  · split at hdet
    · exact absurd hdet (by simp)
    next fitted heq =>
      split at hdet
      · exact absurd hdet (by simp)
      next hr =>
        split at hdet
        · exact absurd hdet (by simp)
        · rw [Option.some.injEq] at hdet
          subst hdet
          dsimp only
          push_neg at hr
          exact hr

theorem radius_foldl_sum (l : List BoardDetection) (a : ℚ) :
    l.foldl (fun s det => s + det.radius) a = a + (l.map (fun det => det.radius)).sum := by
  induction l generalizing a with
  | nil => simp
  | cons d ds ih =>
    simp only [List.foldl_cons, List.map_cons, List.sum_cons]
    rw [ih]
    ring

theorem radius_sum_bounds (l : List BoardDetection)
    (h : ∀ d ∈ l, MIN_BOARD_RADIUS ≤ d.radius ∧ d.radius ≤ MAX_BOARD_RADIUS) :
    MIN_BOARD_RADIUS * l.length ≤ (l.map (fun det => det.radius)).sum ∧
    (l.map (fun det => det.radius)).sum ≤ MAX_BOARD_RADIUS * l.length := by
  induction l with
  | nil => simp
  | cons d ds ih =>
    obtain ⟨h1, h2⟩ := h d (List.mem_cons_self d ds)
    obtain ⟨ih1, ih2⟩ := ih fun d hd => h d (List.mem_cons_of_mem _ hd)
    simp only [List.map_cons, List.sum_cons, List.length_cons]
    push_cast
    constructor
    · nlinarith
    · nlinarith

theorem getSmoothed_radius_bounds (l : List BoardDetection)
    (h : ∀ d ∈ l, MIN_BOARD_RADIUS ≤ d.radius ∧ d.radius ≤ MAX_BOARD_RADIUS) :
    Option.all (fun det => decide (0 < det.radius ∧ MIN_BOARD_RADIUS ≤ det.radius ∧
      det.radius ≤ MAX_BOARD_RADIUS)) (getSmoothed l) = true := by
  cases l with
  | nil => rfl
  | cons d ds =>
    obtain ⟨hs1, hs2⟩ := radius_sum_bounds (d :: ds) h
    have hn : (0 : ℚ) < ((d :: ds).length : ℚ) := by
      simp
      positivity
    simp only [getSmoothed, Option.all_some, decide_eq_true_eq]
    rw [radius_foldl_sum, zero_add]
    have hlow : MIN_BOARD_RADIUS ≤ ((d :: ds).map (fun det => det.radius)).sum /
        ((d :: ds).length : ℚ) := by
      rw [le_div_iff₀ hn]
      exact hs1
    have hhigh : ((d :: ds).map (fun det => det.radius)).sum / ((d :: ds).length : ℚ) ≤
        MAX_BOARD_RADIUS := by
      rw [div_le_iff₀ hn]
      exact hs2
    have hpos : (0 : ℚ) < ((d :: ds).map (fun det => det.radius)).sum /
        ((d :: ds).length : ℚ) :=
      lt_of_lt_of_le (by norm_num [MIN_BOARD_RADIUS]) hlow
    exact ⟨hpos, hlow, hhigh⟩

theorem addDetection_bounds (dets : List BoardDetection) (o : Option BoardDetection)
    (hlen : dets.length ≤ 5)
    (hall : ∀ d ∈ dets, MIN_BOARD_RADIUS ≤ d.radius ∧ d.radius ≤ MAX_BOARD_RADIUS)
    (ho : ∀ det, o = some det → MIN_BOARD_RADIUS ≤ det.radius ∧
      det.radius ≤ MAX_BOARD_RADIUS) :
    (addDetection dets o).length ≤ 5 ∧
    ∀ d ∈ addDetection dets o, MIN_BOARD_RADIUS ≤ d.radius ∧ d.radius ≤ MAX_BOARD_RADIUS := by
  cases o with
  | none => exact ⟨hlen, hall⟩
  | some det =>
    have hmem : ∀ d ∈ dets ++ [det],
        MIN_BOARD_RADIUS ≤ d.radius ∧ d.radius ≤ MAX_BOARD_RADIUS := by
      intro d hd
      rcases List.mem_append.mp hd with hd | hd
      · exact hall d hd
      · simp only [List.mem_singleton] at hd
        subst hd
        exact ho d rfl
    simp only [addDetection]
    split
    next hgt =>
      constructor
      · simp only [List.length_drop, List.length_append, List.length_singleton]
        omega
      · intro d hd
        exact hmem d (List.mem_of_mem_drop hd)
    next hgt =>
      constructor
      · simp only [List.length_append, List.length_singleton] at hgt ⊢
        omega
      · exact hmem

theorem smootherRun_bounds (msqrt : ℚ → ℚ) (frames : List FrameDiff.ImageData) :
    (smootherRun msqrt frames).length ≤ 5 ∧
    ∀ d ∈ smootherRun msqrt frames,
      MIN_BOARD_RADIUS ≤ d.radius ∧ d.radius ≤ MAX_BOARD_RADIUS := by
  unfold smootherRun
  generalize hini : ([] : List BoardDetection) = ini
  have hbase : ini.length ≤ 5 ∧ ∀ d ∈ ini,
      MIN_BOARD_RADIUS ≤ d.radius ∧ d.radius ≤ MAX_BOARD_RADIUS := by
    rw [← hini]
    simp
  clear hini
  induction frames generalizing ini with
  | nil => exact hbase
  | cons f fs ih =>
    rw [List.foldl_cons]
    exact ih _ (addDetection_bounds ini (detectBoard msqrt f) hbase.1 hbase.2
      fun det hdet => detectBoard_radius_bounds msqrt f det hdet)

/-- C8: every `BoardDetection` that `detectBoard` returns has its radius
within `[MIN_BOARD_RADIUS, MAX_BOARD_RADIUS] = [100, 2000]` (out-of-range
fits are rejected); the smoother, fed with `detectBoard` results as the
tracker feeds it, stores at most 5 detections, all within range, and its
averaged output consequently has a positive radius within the same
range. -/
theorem C8_radius_invariant (msqrt : ℚ → ℚ) :
    (∀ frame, Option.all (fun det => decide (MIN_BOARD_RADIUS ≤ det.radius ∧
      det.radius ≤ MAX_BOARD_RADIUS)) (detectBoard msqrt frame) = true) ∧
    (∀ frames : List FrameDiff.ImageData,
      (smootherRun msqrt frames).length ≤ 5 ∧
      (smootherRun msqrt frames).all (fun det => decide (MIN_BOARD_RADIUS ≤ det.radius ∧
        det.radius ≤ MAX_BOARD_RADIUS)) = true ∧
      Option.all (fun det => decide (0 < det.radius ∧ MIN_BOARD_RADIUS ≤ det.radius ∧
        det.radius ≤ MAX_BOARD_RADIUS)) (getSmoothed (smootherRun msqrt frames)) = true) := by
  constructor
  · intro frame
    cases hdet : detectBoard msqrt frame with
    | none => rfl
    | some det =>
      simp only [Option.all_some, decide_eq_true_eq]
      exact detectBoard_radius_bounds msqrt frame det hdet
  · intro frames
    obtain ⟨hlen, hall⟩ := smootherRun_bounds msqrt frames
    refine ⟨hlen, ?_, getSmoothed_radius_bounds _ hall⟩
    rw [List.all_eq_true]
    intro d hd
    rw [decide_eq_true_eq]
    exact hall d hd

end BoardDetector

namespace MotionDetector

open FrameDiff (Pt QPoint ImageData)
open BoardDetector (BoardDetection)

theorem validateDartCandidate_isValid_iff (msqrt : ℚ → ℚ) (contour : List Pt)
    (board : BoardDetection) :
    (validateDartCandidate msqrt contour board).isValid = true ↔
      (MIN_DART_AREA ≤ contour.length ∧ contour.length ≤ MAX_DART_AREA ∧
       dartCenterDist msqrt contour board ≤ board.radius * 1.2 ∧
       2 ≤ calculateAspectRatio contour ∧ calculateAspectRatio contour ≤ 15) := by
  show (if contour.length < MIN_DART_AREA ∨ MAX_DART_AREA < contour.length then
      (⟨false, 0⟩ : Validation)
    else if board.radius * 1.2 < dartCenterDist msqrt contour board then ⟨false, 0⟩
    else if calculateAspectRatio contour < 2.0 ∨ 15.0 < calculateAspectRatio contour then
      ⟨false, 0⟩
    else ⟨true, 0.5 +
      (if 3 ≤ calculateAspectRatio contour ∧ calculateAspectRatio contour ≤ 10 then (0.3 : ℚ)
        else 0) +
      (if dartCenterDist msqrt contour board / board.radius < 0.8 then (0.2 : ℚ)
        else 0)⟩).isValid = true ↔ _
  by_cases h1 : contour.length < MIN_DART_AREA ∨ MAX_DART_AREA < contour.length
  · rw [if_pos h1]
    refine iff_of_false (by decide) ?_
    rintro ⟨ha, hb, -⟩
    simp only [MIN_DART_AREA, MAX_DART_AREA] at h1 ha hb
    omega
  · rw [if_neg h1]
    by_cases h2 : board.radius * 1.2 < dartCenterDist msqrt contour board
    · rw [if_pos h2]
      refine iff_of_false (by decide) ?_
      rintro ⟨-, -, hc, -⟩
      linarith
    · rw [if_neg h2]
      by_cases h3 : calculateAspectRatio contour < 2.0 ∨ 15.0 < calculateAspectRatio contour
      · rw [if_pos h3]
        refine iff_of_false (by decide) ?_
        rintro ⟨-, -, -, hd, he⟩
        rcases h3 with h3 | h3
        · linarith
        · linarith
      · rw [if_neg h3]
        push_neg at h1 h3
        refine iff_of_true rfl ⟨?_, ?_, not_lt.mp h2, by linarith [h3.1], by linarith [h3.2]⟩
        · simp only [MIN_DART_AREA] at h1 ⊢
          omega
        · simp only [MAX_DART_AREA] at h1 ⊢
          omega

/-- C9: the dart candidate validator `validateDartCandidate` (the
validation stage of `detectNewDart`) accepts exactly when the contour's
point count is within `[MIN_DART_AREA, MAX_DART_AREA] = [100, 5000]`, its
centroid is at most `1.2 × radius` from the board centre, and its
bounding-box aspect ratio lies in `[2.0, 15.0]`; whenever any of the
three fails, `detectNewDart` returns `null`, and every candidate it does
return satisfies all three. -/
theorem C9_validator (msqrt : ℚ → ℚ) (board : BoardDetection) :
    (∀ contour : List Pt,
      ((validateDartCandidate msqrt contour board).isValid = true ↔
        (MIN_DART_AREA ≤ contour.length ∧ contour.length ≤ MAX_DART_AREA ∧
         dartCenterDist msqrt contour board ≤ board.radius * 1.2 ∧
         2 ≤ calculateAspectRatio contour ∧ calculateAspectRatio contour ≤ 15))) ∧
    (∀ currentFrame referenceFrame : ImageData,
      ((detectNewDart msqrt currentFrame referenceFrame board).isSome = true ↔
        (∃ c, (FrameDiff.detectFrameDifference currentFrame referenceFrame).largestContour
            = some c ∧ (validateDartCandidate msqrt c board).isValid = true)) ∧
      Option.all
        (fun cand => decide (MIN_DART_AREA ≤ cand.contour.length ∧
          cand.contour.length ≤ MAX_DART_AREA ∧
          dartCenterDist msqrt cand.contour board ≤ board.radius * 1.2 ∧
          2 ≤ cand.aspectRatio ∧ cand.aspectRatio ≤ 15))
        (detectNewDart msqrt currentFrame referenceFrame board) = true) := by
  refine ⟨fun contour => validateDartCandidate_isValid_iff msqrt contour board, ?_⟩
  intro currentFrame referenceFrame
  unfold detectNewDart
  cases hL : (FrameDiff.detectFrameDifference currentFrame referenceFrame).largestContour with
  | none =>
    constructor
    · simp
    · rfl
  | some c =>
    dsimp only
    by_cases hv : (validateDartCandidate msqrt c board).isValid = true
    · rw [if_pos hv]
      constructor
      · simp only [Option.isSome_some, true_iff]
        exact ⟨c, rfl, hv⟩
      · simp only [Option.all_some, decide_eq_true_eq]
        exact (validateDartCandidate_isValid_iff msqrt c board).mp hv
    · rw [if_neg hv]
      constructor
      · simp only [Option.isSome_none, Bool.false_eq_true, false_iff]
        rintro ⟨c', hc', hv'⟩
        rw [Option.some.injEq] at hc'
        subst hc'
        exact hv hv'
      · rfl

/-- Iterated `updateMotionState` over a sequence of (current, previous)
frame observations, generic in the changed-area function. -/
def motionRunG {Frame : Type} (diffChangeArea : Frame → Frame → ℕ) (state : MotionState)
    (l : List (Frame × Option Frame)) : MotionState :=
  l.foldl (fun st pr => updateMotionStateG diffChangeArea st pr.1 pr.2) state

theorem motionRunG_no_motion {Frame : Type} (diffChangeArea : Frame → Frame → ℕ)
    (l : List (Frame × Option Frame)) (s : MotionState)
    (hl : ∀ pr ∈ l, (detectMotionG diffChangeArea pr.1 pr.2).motionArea < MOTION_THRESHOLD)
    (hs : s.isStable = decide (STABILITY_FRAMES_REQUIRED ≤ s.stabilityFrames)) :
    (motionRunG diffChangeArea s l).stabilityFrames = s.stabilityFrames + l.length ∧
    (motionRunG diffChangeArea s l).isStable =
      decide (STABILITY_FRAMES_REQUIRED ≤ s.stabilityFrames + l.length) := by
  induction l generalizing s with
  | nil => exact ⟨by simp [motionRunG], by simpa [motionRunG] using hs⟩
  | cons pr l ih =>
    have hpr := hl pr (List.mem_cons_self pr l)
    have hnm : (detectMotionG diffChangeArea pr.1 pr.2).hasMotion = false := by
      rcases hp2 : pr.2 with - | p
      · rfl
      · rw [hp2] at hpr
        have harea : diffChangeArea pr.1 p < MOTION_THRESHOLD := by
          simpa [detectMotionG] using hpr
        simp only [detectMotionG, decide_eq_false_iff_not, not_lt]
        omega
    have hstep : updateMotionStateG diffChangeArea s pr.1 pr.2 =
        ⟨decide (STABILITY_FRAMES_REQUIRED ≤ s.stabilityFrames + 1), s.stabilityFrames + 1,
          (detectMotionG diffChangeArea pr.1 pr.2).motionArea, false⟩ := by
      simp [updateMotionStateG, hnm]
    have hrest := ih (updateMotionStateG diffChangeArea s pr.1 pr.2)
      (fun pr' hpr' => hl pr' (List.mem_cons_of_mem _ hpr')) (by rw [hstep])
    rw [hstep] at hrest
    simp only [List.length_cons, motionRunG, List.foldl_cons] at hrest ⊢
    rw [hstep]
    have harith : s.stabilityFrames + 1 + l.length = s.stabilityFrames + (l.length + 1) := by
      omega
    refine ⟨by rw [hrest.1]; ring, by rw [hrest.2, harith]⟩

/-- C6: one update whose changed area exceeds `MOTION_THRESHOLD` resets
the stabiliser (`isStable = false`, `stabilityFrames = 0`); a following
run of `k` consecutive updates whose changed area is below the threshold
leaves `stabilityFrames = k` and yields `isStable = true` exactly when
`k ≥ STABILITY_FRAMES_REQUIRED = 15` — so `isStable` is false on updates
1 through 14 and first becomes true on exactly the 15th, and the state is
never stable before 15 consecutive no-motion updates.  Stated generically
in the changed-area function; the source's `updateMotionState` is the
instance `updateMotionStateI` (final conjunct). -/
theorem C6_stabilizer {Frame : Type} (diffChangeArea : Frame → Frame → ℕ)
    (s : MotionState) (f p : Frame)
    (hm : MOTION_THRESHOLD < diffChangeArea f p)
    (l : List (Frame × Option Frame))
    (hl : ∀ pr ∈ l, (detectMotionG diffChangeArea pr.1 pr.2).motionArea < MOTION_THRESHOLD) :
    (updateMotionStateG diffChangeArea s f (some p) =
      ⟨false, 0, diffChangeArea f p, true⟩) ∧
    (∀ k ≤ l.length,
      (motionRunG diffChangeArea (updateMotionStateG diffChangeArea s f (some p))
        (l.take k)).stabilityFrames = k ∧
      ((motionRunG diffChangeArea (updateMotionStateG diffChangeArea s f (some p))
        (l.take k)).isStable = true ↔ STABILITY_FRAMES_REQUIRED ≤ k)) ∧
    (∀ (st : MotionState) (cur : ImageData) (prev : Option ImageData),
      updateMotionStateI st cur prev = updateMotionStateG diffChangeAreaI st cur prev) := by
  have hcond : (detectMotionG diffChangeArea f (some p)).hasMotion = true := by
    simp only [detectMotionG, decide_eq_true_eq]
    exact hm
  have hreset : updateMotionStateG diffChangeArea s f (some p) =
      ⟨false, 0, diffChangeArea f p, true⟩ := by
    simp [updateMotionStateG, detectMotionG, hm]
  refine ⟨hreset, ?_, fun _ _ _ => rfl⟩
  intro k hk
  have htake : ∀ pr ∈ l.take k,
      (detectMotionG diffChangeArea pr.1 pr.2).motionArea < MOTION_THRESHOLD :=
    fun pr hpr => hl pr (List.take_subset k l hpr)
  rw [hreset]
  have hrun := motionRunG_no_motion diffChangeArea (l.take k)
    ⟨false, 0, diffChangeArea f p, true⟩ htake (by rfl)
  simp only at hrun
  rw [List.length_take, min_eq_left hk] at hrun
  refine ⟨by rw [hrun.1]; omega, ?_⟩
  rw [hrun.2]
  simp only [decide_eq_true_eq]
  omega

/-- Witness for `C6_stabilizer`: with a changed-area function returning
501 on the motion pair and 0 on the stabilising pairs, after the motion
reset and 15 no-motion updates the state is stable with
`stabilityFrames = 15`, and after only 14 it is not yet stable. -/
theorem C6_stabilizer_witness :
    ((motionRunG (fun a _ => if a = 1 then 501 else 0)
      (updateMotionStateG (fun a _ => if a = 1 then 501 else 0) createMotionState 1 (some 0))
      ((List.replicate 15 ((0 : ℕ), some (0 : ℕ))).take 15)).isStable = true) ∧
    ((motionRunG (fun a _ => if a = 1 then 501 else 0)
      (updateMotionStateG (fun a _ => if a = 1 then 501 else 0) createMotionState 1 (some 0))
      ((List.replicate 15 ((0 : ℕ), some (0 : ℕ))).take 14)).isStable ≠ true) := by
  have h := C6_stabilizer (fun a _ => if a = 1 then 501 else 0) createMotionState 1 0
    (by decide) (List.replicate 15 ((0 : ℕ), some (0 : ℕ))) (by decide)
  constructor
  · exact ((h.2.1 15 (by decide)).2).mpr (by decide)
  · intro hc
    have h14 := ((h.2.1 14 (by decide)).2).mp hc
    exact absurd h14 (by decide)

end MotionDetector

namespace BoardMapper

theorem arg_d_cos_sin (d r : ℝ) (hd : 0 < d) (hr : r ∈ Set.Ioc (-Real.pi) Real.pi) :
    Complex.arg ⟨d * Real.cos r, d * Real.sin r⟩ = r := by
  rw [Complex.mk_eq_add_mul_I]
  rw [show (↑(d * Real.cos r) + ↑(d * Real.sin r) * Complex.I : ℂ) =
      (d : ℂ) * (↑(Real.cos r) + ↑(Real.sin r) * Complex.I) by push_cast; ring]
  rw [Complex.arg_real_mul _ hd, Complex.ofReal_cos, Complex.ofReal_sin,
    Complex.arg_cos_add_sin_mul_I hr]

theorem toPolar_pointAtPolar (a d : ℝ) (hd : 0 < d) (h0 : 0 ≤ a) (h1 : a < 360) :
    toPolar (pointAtPolar a d) = ⟨a, d⟩ := by
  have hpi := Real.pi_pos
  set r := a * Real.pi / 180 with hrdef
  have hx : (pointAtPolar a d).x = d * Real.sin r := rfl
  have hy : (pointAtPolar a d).y = -(d * Real.cos r) := rfl
  have hdist : Real.sqrt ((pointAtPolar a d).x * (pointAtPolar a d).x +
      (pointAtPolar a d).y * (pointAtPolar a d).y) = d := by
    rw [hx, hy]
    have hsq : d * Real.sin r * (d * Real.sin r) + -(d * Real.cos r) * -(d * Real.cos r)
        = d ^ 2 := by
      have hsc := Real.sin_sq_add_cos_sq r
      nlinarith [hsc]
    rw [hsq, Real.sqrt_sq hd.le]
  by_cases hcase : a ≤ 180
  · have hrIoc : r ∈ Set.Ioc (-Real.pi) Real.pi := by
      constructor
      · rw [hrdef]
        nlinarith
      · rw [hrdef]
        rw [div_le_iff₀ (by norm_num : (0:ℝ) < 180)]
        nlinarith
    have hangle : atan2 (pointAtPolar a d).x (-(pointAtPolar a d).y) = r := by
      rw [hx, hy, neg_neg]
      exact arg_d_cos_sin d r hd hrIoc
    have hdeg : r * (180 / Real.pi) = a := by
      rw [hrdef]
      field_simp
    simp only [toPolar]
    rw [hangle, hdeg, hdist]
    rw [if_neg (not_lt.mpr h0)]
  · push_neg at hcase
    have hcos : Real.cos r = Real.cos (r - 2 * Real.pi) := (Real.cos_sub_two_pi r).symm
    have hsin : Real.sin r = Real.sin (r - 2 * Real.pi) := (Real.sin_sub_two_pi r).symm
    have hrIoc : r - 2 * Real.pi ∈ Set.Ioc (-Real.pi) Real.pi := by
      constructor
      · rw [hrdef]
        rw [show -Real.pi < a * Real.pi / 180 - 2 * Real.pi ↔
          Real.pi < a * Real.pi / 180 by constructor <;> intro <;> linarith]
        rw [lt_div_iff₀ (by norm_num : (0:ℝ) < 180)]
        nlinarith
      · rw [hrdef]
        have : a * Real.pi / 180 < 2 * Real.pi := by
          rw [div_lt_iff₀ (by norm_num : (0:ℝ) < 180)]
          nlinarith
        linarith
    have hangle : atan2 (pointAtPolar a d).x (-(pointAtPolar a d).y) = r - 2 * Real.pi := by
      rw [hx, hy, neg_neg, hcos, hsin]
      exact arg_d_cos_sin d (r - 2 * Real.pi) hd hrIoc
    have hdeg : (r - 2 * Real.pi) * (180 / Real.pi) = a - 360 := by
      rw [hrdef]
      field_simp
      ring
    simp only [toPolar]
    rw [hangle, hdeg, hdist]
    rw [if_pos (by linarith : a - 360 < (0:ℝ))]
    congr 1
    ring

theorem getRing_bullseye {x : ℝ} (h : x ≤ 0.037) :
    getRingFromDistance x = ⟨.bullseye, 1, true⟩ := by
  unfold getRingFromDistance
  rw [if_pos]
  simp only [RING_BOUNDARIES_bullseye]
  exact h

theorem getRing_bull {x : ℝ} (h1 : 0.037 < x) (h2 : x ≤ 0.093) :
    getRingFromDistance x = ⟨.bull, 1, true⟩ := by
  unfold getRingFromDistance
  rw [if_neg (by simp only [RING_BOUNDARIES_bullseye]; linarith),
    if_pos (by simp only [RING_BOUNDARIES_bull]; exact h2)]

theorem getRing_innerSingle {x : ℝ} (h1 : 0.093 < x) (h2 : x ≤ 0.582) :
    getRingFromDistance x = ⟨.single, 1, false⟩ := by
  unfold getRingFromDistance
  rw [if_neg (by simp only [RING_BOUNDARIES_bullseye]; linarith),
    if_neg (by simp only [RING_BOUNDARIES_bull]; linarith),
    if_pos (by simp only [RING_BOUNDARIES_triple]; exact h2)]

theorem getRing_triple {x : ℝ} (h1 : 0.582 < x) (h2 : x ≤ 0.629) :
    getRingFromDistance x = ⟨.triple, 3, false⟩ := by
  unfold getRingFromDistance
  rw [if_neg (by simp only [RING_BOUNDARIES_bullseye]; linarith),
    if_neg (by simp only [RING_BOUNDARIES_bull]; linarith),
    if_neg (by simp only [RING_BOUNDARIES_triple]; linarith),
    if_pos (by simp only [RING_BOUNDARIES_triple]; exact h2)]

theorem getRing_outerSingle {x : ℝ} (h1 : 0.629 < x) (h2 : x ≤ 0.953) :
    getRingFromDistance x = ⟨.single, 1, false⟩ := by
  unfold getRingFromDistance
  rw [if_neg (by simp only [RING_BOUNDARIES_bullseye]; linarith),
    if_neg (by simp only [RING_BOUNDARIES_bull]; linarith),
    if_neg (by simp only [RING_BOUNDARIES_triple]; linarith),
    if_neg (by simp only [RING_BOUNDARIES_triple]; linarith),
    if_pos (by simp only [RING_BOUNDARIES_double]; exact h2)]

theorem getRing_double {x : ℝ} (h1 : 0.953 < x) (h2 : x ≤ 1) :
    getRingFromDistance x = ⟨.double, 2, false⟩ := by
  unfold getRingFromDistance
  rw [if_neg (by simp only [RING_BOUNDARIES_bullseye]; linarith),
    if_neg (by simp only [RING_BOUNDARIES_bull]; linarith),
    if_neg (by simp only [RING_BOUNDARIES_triple]; linarith),
    if_neg (by simp only [RING_BOUNDARIES_triple]; linarith),
    if_neg (by simp only [RING_BOUNDARIES_double]; linarith),
    if_pos (by simp only [RING_BOUNDARIES_double]; norm_num; exact h2)]

theorem getRing_miss {x : ℝ} (h : 1 < x) :
    getRingFromDistance x = ⟨.miss, 1, false⟩ := by
  unfold getRingFromDistance
  rw [if_neg (by simp only [RING_BOUNDARIES_bullseye]; linarith),
    if_neg (by simp only [RING_BOUNDARIES_bull]; linarith),
    if_neg (by simp only [RING_BOUNDARIES_triple]; linarith),
    if_neg (by simp only [RING_BOUNDARIES_triple]; linarith),
    if_neg (by simp only [RING_BOUNDARIES_double]; linarith),
    if_neg (by simp only [RING_BOUNDARIES_double]; norm_num; linarith)]

theorem mapToSegment_eq (P dartPos : RPoint) (conf : ℝ) :
    mapToSegment P dartPos conf =
      if (getRingFromDistance (toPolar P).distance).ring = RingKind.miss then
        ⟨0, 1, 0, conf, dartPos, P⟩
      else if (getRingFromDistance (toPolar P).distance).isBull then
        ⟨if (getRingFromDistance (toPolar P).distance).ring = RingKind.bullseye then 50
            else 25, 1,
          if (getRingFromDistance (toPolar P).distance).ring = RingKind.bullseye then 50
            else 25, conf, dartPos, P⟩
      else
        ⟨getSegmentFromAngle (toPolar P).angle,
          (getRingFromDistance (toPolar P).distance).multiplier,
          getSegmentFromAngle (toPolar P).angle *
            (getRingFromDistance (toPolar P).distance).multiplier, conf, dartPos, P⟩ := rfl

theorem segment_order_index :
    ∀ s ∈ Finset.Icc 1 20, SEGMENT_ORDER.indexOf s ≤ 19 ∧
      SEGMENT_ORDER.getD (SEGMENT_ORDER.indexOf s) 0 = s := by decide

theorem getSegment_center (i : ℕ) (hi : i ≤ 19) :
    getSegmentFromAngle ((18 * i : ℕ) : ℝ) = SEGMENT_ORDER.getD i 0 := by
  have hlt : ((18 * i : ℕ) : ℝ) + 9 < 360 := by
    have : (18 * i : ℕ) ≤ 342 := by omega
    push_cast
    have h' : ((18 * i : ℕ) : ℝ) ≤ 342 := by exact_mod_cast this
    push_cast at h'
    linarith
  have hdiv : (((18 * i : ℕ) : ℝ) + 9) / 18 = ((i : ℤ) : ℝ) + 1 / 2 := by
    rw [div_eq_iff (by norm_num : (18:ℝ) ≠ 0)]
    push_cast
    ring
  simp only [getSegmentFromAngle]
  rw [if_neg (not_le.mpr hlt), hdiv, Int.floor_int_add]
  norm_num

/-- C4: Segment Mapper round-trip — for every segment `s ∈ 1..20` and
multiplier `m ∈ {1,2,3}`, mapping the normalised point constructed at the
centre angle of `s`'s wedge and the mid-distance of the ring
corresponding to `m` returns a `DetectionResult` with segment `s` and
multiplier `m`. -/
theorem C4_roundtrip (s m : ℕ) (hs1 : 1 ≤ s) (hs2 : s ≤ 20)
    (hm : m = 1 ∨ m = 2 ∨ m = 3) (dartPos : RPoint) (conf : ℝ) :
    (mapToSegment (pointAtPolar (wedgeCenterAngleDeg s) (ringMidDistance m))
      dartPos conf).segment = s ∧
    (mapToSegment (pointAtPolar (wedgeCenterAngleDeg s) (ringMidDistance m))
      dartPos conf).multiplier = m := by
  obtain ⟨hidx, hget⟩ := segment_order_index s (Finset.mem_Icc.mpr ⟨hs1, hs2⟩)
  have h0 : (0:ℝ) ≤ (wedgeCenterAngleDeg s : ℝ) := Nat.cast_nonneg _
  have h1 : (wedgeCenterAngleDeg s : ℝ) < 360 := by
    have hle : wedgeCenterAngleDeg s ≤ 342 := by
      unfold wedgeCenterAngleDeg
      omega
    have h' : (wedgeCenterAngleDeg s : ℝ) ≤ 342 := by exact_mod_cast hle
    linarith
  have hseg : getSegmentFromAngle (wedgeCenterAngleDeg s : ℝ) = s := by
    have hcast : ((wedgeCenterAngleDeg s : ℕ) : ℝ) =
        ((18 * SEGMENT_ORDER.indexOf s : ℕ) : ℝ) := rfl
    rw [hcast, getSegment_center (SEGMENT_ORDER.indexOf s) hidx, hget]
  rcases hm with rfl | rfl | rfl
  · have hd : (0:ℝ) < ringMidDistance 1 := by norm_num [ringMidDistance]
    have hpolar := toPolar_pointAtPolar (wedgeCenterAngleDeg s : ℝ) (ringMidDistance 1)
      hd h0 h1
    rw [mapToSegment_eq, hpolar]
    dsimp only
    rw [getRing_innerSingle (by norm_num [ringMidDistance]) (by norm_num [ringMidDistance])]
    simp [hseg]
  · have hd : (0:ℝ) < ringMidDistance 2 := by norm_num [ringMidDistance]
    have hpolar := toPolar_pointAtPolar (wedgeCenterAngleDeg s : ℝ) (ringMidDistance 2)
      hd h0 h1
    rw [mapToSegment_eq, hpolar]
    dsimp only
    rw [getRing_double (by norm_num [ringMidDistance]) (by norm_num [ringMidDistance])]
    simp [hseg]
  · have hd : (0:ℝ) < ringMidDistance 3 := by norm_num [ringMidDistance]
    have hpolar := toPolar_pointAtPolar (wedgeCenterAngleDeg s : ℝ) (ringMidDistance 3)
      hd h0 h1
    rw [mapToSegment_eq, hpolar]
    dsimp only
    rw [getRing_triple (by norm_num [ringMidDistance]) (by norm_num [ringMidDistance])]
    simp [hseg]

/-- Witness for `C4_roundtrip` at segment 20, multiplier 3 (the triple
20). -/
theorem C4_roundtrip_witness :
    (mapToSegment (pointAtPolar (wedgeCenterAngleDeg 20) (ringMidDistance 3))
      ⟨0, 0⟩ 1).segment = 20 ∧
    (mapToSegment (pointAtPolar (wedgeCenterAngleDeg 20) (ringMidDistance 3))
      ⟨0, 0⟩ 1).multiplier = 3 :=
  C4_roundtrip 20 3 (by norm_num) (by norm_num) (Or.inr (Or.inr rfl)) ⟨0, 0⟩ 1

/-- C5: the ring lookup by normalised distance follows the fixed
boundaries — in sequential-interval reading, distance ≤ 0.037 yields the
bullseye result `{segment 50, ×1, 50 points}`; (0.037, 0.093] the bull
`{25, ×1, 25}`; (0.093, 0.582] a single (×1, points = segment);
(0.582, 0.629] a triple (×3); (0.629, 0.953] a single (×1);
(0.953, 1.0] a double (×2); and distance > 1.0 a miss
`{segment 0, ×1, 0 points}`. -/
theorem C5_ring_lookup (p dartPos : RPoint) (conf : ℝ) :
    ((toPolar p).distance ≤ 0.037 →
      mapToSegment p dartPos conf = ⟨50, 1, 50, conf, dartPos, p⟩) ∧
    (0.037 < (toPolar p).distance → (toPolar p).distance ≤ 0.093 →
      mapToSegment p dartPos conf = ⟨25, 1, 25, conf, dartPos, p⟩) ∧
    (0.093 < (toPolar p).distance → (toPolar p).distance ≤ 0.582 →
      (mapToSegment p dartPos conf).multiplier = 1 ∧
      (mapToSegment p dartPos conf).points = (mapToSegment p dartPos conf).segment) ∧
    (0.582 < (toPolar p).distance → (toPolar p).distance ≤ 0.629 →
      (mapToSegment p dartPos conf).multiplier = 3 ∧
      (mapToSegment p dartPos conf).points = (mapToSegment p dartPos conf).segment * 3) ∧
    (0.629 < (toPolar p).distance → (toPolar p).distance ≤ 0.953 →
      (mapToSegment p dartPos conf).multiplier = 1 ∧
      (mapToSegment p dartPos conf).points = (mapToSegment p dartPos conf).segment) ∧
    (0.953 < (toPolar p).distance → (toPolar p).distance ≤ 1 →
      (mapToSegment p dartPos conf).multiplier = 2 ∧
      (mapToSegment p dartPos conf).points = (mapToSegment p dartPos conf).segment * 2) ∧
    (1 < (toPolar p).distance →
      mapToSegment p dartPos conf = ⟨0, 1, 0, conf, dartPos, p⟩) := by
  refine ⟨?_, ?_, ?_, ?_, ?_, ?_, ?_⟩
  · intro h
    rw [mapToSegment_eq, getRing_bullseye h]
    simp
  · intro h1 h2
    rw [mapToSegment_eq, getRing_bull h1 h2]
    simp
  · intro h1 h2
    rw [mapToSegment_eq, getRing_innerSingle h1 h2]
    simp
  · intro h1 h2
    rw [mapToSegment_eq, getRing_triple h1 h2]
    simp
  · intro h1 h2
    rw [mapToSegment_eq, getRing_outerSingle h1 h2]
    simp
  · intro h1 h2
    rw [mapToSegment_eq, getRing_double h1 h2]
    simp
  · intro h
    rw [mapToSegment_eq, getRing_miss h]
    simp


/-- Witness for `C5_ring_lookup`: the origin (distance 0) maps to the
bullseye result, and the point `(0, 2)` (distance 2 > 1) maps to the miss
result. -/
theorem C5_ring_lookup_witness :
    mapToSegment ⟨0, 0⟩ ⟨0, 0⟩ 1 = ⟨50, 1, 50, 1, ⟨0, 0⟩, ⟨0, 0⟩⟩ ∧
    mapToSegment ⟨0, 2⟩ ⟨0, 0⟩ 1 = ⟨0, 1, 0, 1, ⟨0, 0⟩, ⟨0, 2⟩⟩ := by
  constructor
  · refine (C5_ring_lookup ⟨0, 0⟩ ⟨0, 0⟩ 1).1 ?_
    have h : (toPolar (⟨0, 0⟩ : RPoint)).distance = 0 := by
      show Real.sqrt (0 * 0 + 0 * 0) = 0
      norm_num
    rw [h]
    norm_num
  · refine (C5_ring_lookup ⟨0, 2⟩ ⟨0, 0⟩ 1).2.2.2.2.2.2 ?_
    have h : (toPolar (⟨0, 2⟩ : RPoint)).distance = 2 := by
      show Real.sqrt (0 * 0 + 2 * 2) = 2
      rw [show (0 * 0 + 2 * 2 : ℝ) = 2 ^ 2 by norm_num,
        Real.sqrt_sq (by norm_num : (0:ℝ) ≤ 2)]
    rw [h]
    norm_num

end BoardMapper

namespace Tracker

section TrackerThm

variable {Frame Board Dart : Type}
variable (diffChangeArea : Frame → Frame → ℕ) (getSmoothedB : List Board → Option Board)

theorem StepSpec_noop (s s' : TrackerSt Frame Board Dart) (e : List (TEvent Dart))
    (hJ : dartInv s') (hd : s'.detectedDarts = s.detectedDarts)
    (he : e.countP isTurnCompleteEv = 0) :
    StepSpec s (s', e) := by
  refine ⟨hJ, ?_, ?_, ?_, by rw [hd]; omega⟩
  · rw [he, if_neg]
    rintro ⟨h2, h3⟩
    rw [hd, h2] at h3
    omega
  · intro ds hds
    exact absurd rfl (List.countP_eq_zero.mp he _ hds)
  · intro h2 h3
    rw [hd, h2] at h3
    omega

theorem startTurnCore_spec (s : TrackerSt Frame Board Dart) (c : Option Frame)
    (hJ : dartInv s) :
    dartInv (startTurnCore s c).1 ∧
    (startTurnCore s c).1.pendingRemovalAt = s.pendingRemovalAt ∧
    ((startTurnCore s c).1.detectedDarts = s.detectedDarts ∨
      (startTurnCore s c).1.detectedDarts = []) ∧
    (startTurnCore s c).2.countP isTurnCompleteEv = 0 := by
  cases c with
  | none => exact ⟨hJ, rfl, Or.inl rfl, rfl⟩
  | some f =>
    refine ⟨⟨by simp [startTurnCore], ?_⟩, rfl, Or.inr rfl, rfl⟩
    intro h
    simp [startTurnCore] at h

theorem fireRemovalTimer_spec (s : TrackerSt Frame Board Dart) (now : ℕ)
    (hJ : dartInv s) :
    dartInv (fireRemovalTimer s now).1 ∧
    (∀ t, (fireRemovalTimer s now).1.pendingRemovalAt = some t → now < t) ∧
    (fireRemovalTimer s now).1.detectedDarts = s.detectedDarts ∧
    (fireRemovalTimer s now).1.pendingStartAt = s.pendingStartAt ∧
    (fireRemovalTimer s now).2.countP isTurnCompleteEv = 0 := by
  unfold fireRemovalTimer
  split
  · next t heq =>
    split
    · next hdue =>
      refine ⟨⟨hJ.1, fun _ => Or.inr (Or.inl rfl)⟩, ?_, rfl, rfl, rfl⟩
      intro v hv
      have hv2 : (none : Option ℕ) = some v := hv
      cases hv2
    · next hnot =>
      refine ⟨hJ, ?_, rfl, rfl, rfl⟩
      intro v hv
      have hv2 : s.pendingRemovalAt = some v := hv
      rw [heq] at hv2
      injection hv2 with h
      omega
  · next heq =>
    refine ⟨hJ, ?_, rfl, rfl, rfl⟩
    intro v hv
    have hv2 : s.pendingRemovalAt = some v := hv
    rw [heq] at hv2
    cases hv2

theorem fireStartTimer_spec (s : TrackerSt Frame Board Dart) (now : ℕ) (c : Option Frame)
    (hJ : dartInv s) :
    dartInv (fireStartTimer s now c).1 ∧
    (fireStartTimer s now c).1.pendingRemovalAt = s.pendingRemovalAt ∧
    ((fireStartTimer s now c).1.detectedDarts = s.detectedDarts ∨
      (fireStartTimer s now c).1.detectedDarts = []) ∧
    (fireStartTimer s now c).2.countP isTurnCompleteEv = 0 := by
  unfold fireStartTimer
  split
  · split
    · exact startTurnCore_spec { s with pendingStartAt := none } c hJ
    · exact ⟨hJ, rfl, Or.inl rfl, rfl⟩
  · exact ⟨hJ, rfl, Or.inl rfl, rfl⟩

theorem fireDueTimers_spec (s : TrackerSt Frame Board Dart) (now : ℕ) (c : Option Frame)
    (hJ : dartInv s) :
    dartInv (fireDueTimers s now c).1 ∧
    (∀ t, (fireDueTimers s now c).1.pendingRemovalAt = some t → now < t) ∧
    ((fireDueTimers s now c).1.detectedDarts = s.detectedDarts ∨
      (fireDueTimers s now c).1.detectedDarts = []) ∧
    (fireDueTimers s now c).2.countP isTurnCompleteEv = 0 := by
  obtain ⟨a1, b1, d1, p1, e1⟩ := fireRemovalTimer_spec s now hJ
  obtain ⟨a2, b2, d2, e2⟩ := fireStartTimer_spec (fireRemovalTimer s now).1 now c a1
  simp only [fireDueTimers]
  refine ⟨a2, ?_, ?_, ?_⟩
  · intro t ht
    rw [b2] at ht
    exact b1 t ht
  · rcases d2 with d2 | d2
    · rw [d2, d1]
      exact Or.inl rfl
    · exact Or.inr d2
  · rw [List.countP_append, e1, e2]

theorem detectStabilizedDart_spec (s : TrackerSt Frame Board Dart)
    (obs : FrameObs Frame Board Dart) (now : ℕ) (hJ : dartInv s)
    (hpend : ∀ t, s.pendingRemovalAt = some t → now < t)
    (hwd : s.state.isWaitingDart = true) :
    StepSpec s (detectStabilizedDart s obs now) := by
  have hnoop : StepSpec s (s, []) := StepSpec_noop s s [] hJ rfl rfl
  unfold detectStabilizedDart
  split
  · split
    · exact hnoop
    · next hdeb =>
      split
      · next cand heq =>
        split
        · next hconf =>
          have hlen : s.detectedDarts.length ≤ 2 := by
            by_contra hc
            have h3 : s.detectedDarts.length = 3 := by
              have := hJ.1
              omega
            rcases hJ.2 h3 with hp | hst | hst
            · have h1 := hpend _ hp
              simp only [DETECTION_DEBOUNCE_MS] at hdeb
              omega
            · rw [hst] at hwd
              exact absurd hwd (by decide)
            · rw [hst] at hwd
              exact absurd hwd (by decide)
          dsimp only
          split
          · next h1 =>
            simp only [List.length_append, List.length_singleton] at h1
            unfold StepSpec
            refine ⟨⟨?_, ?_⟩, ?_, ?_, ?_, ?_⟩
            · dsimp only
              simp only [List.length_append, List.length_singleton]
              omega
            · dsimp only
              simp only [List.length_append, List.length_singleton]
              omega
            · dsimp only
              rw [if_neg (by simp only [List.length_append, List.length_singleton]; omega)]
              rfl
            · intro ds hds
              simp at hds
            · intro h2 _
              omega
            · dsimp only
              simp only [List.length_append, List.length_singleton]
              omega
          · next h1 =>
            split
            · next h2 =>
              simp only [List.length_append, List.length_singleton] at h2
              unfold StepSpec
              refine ⟨⟨?_, ?_⟩, ?_, ?_, ?_, ?_⟩
              · dsimp only
                simp only [List.length_append, List.length_singleton]
                omega
              · dsimp only
                simp only [List.length_append, List.length_singleton]
                omega
              · dsimp only
                rw [if_neg (by simp only [List.length_append, List.length_singleton]; omega)]
                rfl
              · intro ds hds
                simp at hds
              · intro ha _
                omega
              · dsimp only
                simp only [List.length_append, List.length_singleton]
                omega
            · next h2 =>
              split
              · next h3 =>
                simp only [List.length_append, List.length_singleton] at h3
                unfold StepSpec
                refine ⟨⟨?_, ?_⟩, ?_, ?_, ?_, ?_⟩
                · dsimp only
                  simp only [List.length_append, List.length_singleton]
                  omega
                · intro _
                  exact Or.inl rfl
                · dsimp only
                  rw [if_pos ⟨by omega, by simp only [List.length_append, List.length_singleton]; omega⟩]
                  rfl
                · intro ds hds
                  simp only [List.mem_cons, List.not_mem_nil, or_false] at hds
                  rcases hds with h | h | h
                  · cases h
                  · cases h
                    exact ⟨rfl, by simp only [List.length_append, List.length_singleton]; omega,
                      rfl, by omega⟩
                  · cases h
                · intro _ _
                  refine ⟨rfl, ?_⟩
                  simp
                · dsimp only
                  simp only [List.length_append, List.length_singleton]
                  omega
              · next h3 =>
                exfalso
                simp only [List.length_append, List.length_singleton] at h1 h2 h3
                omega
        · exact hnoop
      · exact hnoop
  · exact hnoop

theorem boardPhase_spec (s : TrackerSt Frame Board Dart) (obs : FrameObs Frame Board Dart)
    (hJ : dartInv s) :
    dartInv (boardPhase getSmoothedB s obs).1 ∧
    (boardPhase getSmoothedB s obs).1.detectedDarts = s.detectedDarts ∧
    (boardPhase getSmoothedB s obs).1.pendingRemovalAt = s.pendingRemovalAt ∧
    (boardPhase getSmoothedB s obs).1.lastDetectionTime = s.lastDetectionTime ∧
    (boardPhase getSmoothedB s obs).2.countP isTurnCompleteEv = 0 := by
  unfold boardPhase
  split
  · next b heq =>
    dsimp only
    split
    · next sm heq2 =>
      split
      · next hst =>
        refine ⟨⟨hJ.1, ?_⟩, rfl, rfl, rfl, rfl⟩
        intro h3
        rcases hJ.2 h3 with hp | hs | hs
        · exact Or.inl hp
        · rw [hs] at hst
          cases hst
        · rw [hs] at hst
          cases hst
      · exact ⟨⟨hJ.1, hJ.2⟩, rfl, rfl, rfl, rfl⟩
    · exact ⟨hJ, rfl, rfl, rfl, rfl⟩
  · split
    · next hg =>
      refine ⟨⟨hJ.1, ?_⟩, rfl, rfl, rfl, rfl⟩
      intro h3
      rcases hJ.2 h3 with hp | hs | hs
      · exact Or.inl hp
      · exact absurd hs hg.2
      · exact absurd hs hg.1
    · exact ⟨hJ, rfl, rfl, rfl, rfl⟩

theorem motionPhase_spec (s : TrackerSt Frame Board Dart) (obs : FrameObs Frame Board Dart)
    (now : ℕ) (hJ : dartInv s) (hpend : ∀ t, s.pendingRemovalAt = some t → now < t) :
    StepSpec s (motionPhase diffChangeArea s obs now) := by
  unfold motionPhase
  split
  · next hg =>
    dsimp only
    split
    · exact StepSpec_noop s _ _ hJ rfl rfl
    · split
      · obtain ⟨a, b, m, l, c5⟩ := detectStabilizedDart_spec
          { s with motionState := (MotionDetector.updateMotionStateG diffChangeArea s.motionState obs.frame s.previousFrame) } obs now hJ hpend hg.2.2
        refine ⟨a, ?_, ?_, ?_, c5⟩
        · rw [List.countP_cons, b]
          rfl
        · intro ds hds
          rcases List.mem_cons.mp hds with h | h
          · cases h
          · exact m ds h
        · intro h2 h3
          obtain ⟨hstate, hmem⟩ := l h2 h3
          exact ⟨hstate, List.mem_cons_of_mem _ hmem⟩
      · exact StepSpec_noop s _ _ hJ rfl rfl
  · exact StepSpec_noop s s [] hJ rfl rfl

theorem removalPhase_spec (s : TrackerSt Frame Board Dart) (obs : FrameObs Frame Board Dart)
    (now : ℕ) (hJ : dartInv s) :
    dartInv (removalPhase diffChangeArea s obs now).1 ∧
    (removalPhase diffChangeArea s obs now).1.detectedDarts = s.detectedDarts ∧
    ((removalPhase diffChangeArea s obs now).1.state = s.state ∨
      s.state = TState.waitingRemoval) ∧
    (removalPhase diffChangeArea s obs now).2.countP isTurnCompleteEv = 0 := by
  unfold removalPhase
  split
  · next hwr =>
    split
    · next rf heq =>
      split
      · next hlt =>
        exact ⟨⟨hJ.1, fun _ => Or.inr (Or.inr rfl)⟩, rfl, Or.inr hwr, rfl⟩
      · exact ⟨hJ, rfl, Or.inl rfl, rfl⟩
    · exact ⟨hJ, rfl, Or.inl rfl, rfl⟩
  · exact ⟨hJ, rfl, Or.inl rfl, rfl⟩

theorem tickCore_spec (s : TrackerSt Frame Board Dart) (obs : FrameObs Frame Board Dart)
    (now : ℕ) (hJ : dartInv s) (hpend : ∀ t, s.pendingRemovalAt = some t → now < t) :
    StepSpec s (tickCore diffChangeArea getSmoothedB s obs now) := by
  obtain ⟨J1, d1, p1, l1, e1⟩ := boardPhase_spec getSmoothedB s obs hJ
  have hpend1 : ∀ t, (boardPhase getSmoothedB s obs).1.pendingRemovalAt = some t → now < t := by
    intro t ht
    rw [p1] at ht
    exact hpend t ht
  obtain ⟨J2, c2, m2, l2, a2⟩ := motionPhase_spec diffChangeArea
    (boardPhase getSmoothedB s obs).1 obs now J1 hpend1
  obtain ⟨J3, d3, st3, e3⟩ := removalPhase_spec diffChangeArea
    (motionPhase diffChangeArea (boardPhase getSmoothedB s obs).1 obs now).1 obs now J2
  have hd1 : (boardPhase getSmoothedB s obs).1.detectedDarts.length = s.detectedDarts.length :=
    congrArg List.length d1
  have hd3 : (removalPhase diffChangeArea
      (motionPhase diffChangeArea (boardPhase getSmoothedB s obs).1 obs now).1 obs
        now).1.detectedDarts.length =
      (motionPhase diffChangeArea (boardPhase getSmoothedB s obs).1 obs
        now).1.detectedDarts.length :=
    congrArg List.length d3
  simp only [tickCore]
  unfold StepSpec
  refine ⟨?_, ?_, ?_, ?_, ?_⟩
  · exact J3
  · rw [List.countP_append, List.countP_append, e1, e3, c2, d1]
    dsimp only
    rw [d3]
    simp only [Nat.zero_add, Nat.add_zero]
  · intro ds hds
    rcases List.mem_append.mp hds with h12 | h3m
    · rcases List.mem_append.mp h12 with h | h
      · exact absurd rfl (List.countP_eq_zero.mp e1 _ h)
      · obtain ⟨hdse, hlen3, hstate, h2len⟩ := m2 ds h
        refine ⟨?_, hlen3, ?_, ?_⟩
        · rw [d3]
          exact hdse
        · rcases st3 with h' | h'
          · rw [h', hstate]
          · rw [hstate] at h'
            cases h'
        · rw [← d1]
          exact h2len
    · exact absurd rfl (List.countP_eq_zero.mp e3 _ h3m)
  · intro h2 h3
    have h3' : (motionPhase diffChangeArea (boardPhase getSmoothedB s obs).1 obs
        now).1.detectedDarts.length = 3 := by
      rw [← hd3]
      exact h3
    have h2' : (boardPhase getSmoothedB s obs).1.detectedDarts.length = 2 := by
      rw [hd1]
      exact h2
    obtain ⟨hstate, hmem⟩ := l2 h2' h3'
    constructor
    · rcases st3 with h' | h'
      · rw [h', hstate]
      · rw [hstate] at h'
        cases h'
    · dsimp only
      rw [d3]
      exact List.mem_append_left _ (List.mem_append_right _ hmem)
  · dsimp only
    omega

theorem stepT_spec (s : TrackerSt Frame Board Dart) (a : TAction Frame Board Dart)
    (hJ : dartInv s) :
    StepSpec s (stepT diffChangeArea getSmoothedB s a) := by
  cases a with
  | tick obs now =>
    obtain ⟨J0, p0, d0, e0⟩ := fireDueTimers_spec s now (some obs.frame) hJ
    obtain ⟨J1, c1, m1, l1, a1⟩ := tickCore_spec diffChangeArea getSmoothedB
      (fireDueTimers s now (some obs.frame)).1 obs now J0 p0
    simp only [stepT]
    unfold StepSpec
    dsimp only
    refine ⟨J1, ?_, ?_, ?_, ?_⟩
    · rw [List.countP_append, e0, c1, Nat.zero_add]
      rcases d0 with d | d
      · rw [d]
      · have ha := a1
        rw [d] at ha
        simp only [List.length_nil, Nat.zero_add] at ha
        rw [if_neg (by rintro ⟨h2, _⟩; rw [d] at h2; simp at h2),
          if_neg (by rintro ⟨_, h3⟩; omega)]
    · intro ds hds
      rcases List.mem_append.mp hds with h | h
      · exact absurd rfl (List.countP_eq_zero.mp e0 _ h)
      · obtain ⟨hdse, hlen3, hstate, h2len⟩ := m1 ds h
        refine ⟨hdse, hlen3, hstate, ?_⟩
        rcases d0 with d | d
        · rw [← d]
          exact h2len
        · rw [d] at h2len
          simp at h2len
    · intro h2 h3
      rcases d0 with d | d
      · have hd0 := congrArg List.length d
        have h2' : (fireDueTimers s now (some obs.frame)).1.detectedDarts.length = 2 := by
          omega
        obtain ⟨hstate, hmem⟩ := l1 h2' h3
        exact ⟨hstate, List.mem_append_right _ hmem⟩
      · exfalso
        have ha := a1
        rw [d] at ha
        simp only [List.length_nil, Nat.zero_add] at ha
        omega
    · rcases d0 with d | d
      · have hd0 := congrArg List.length d
        omega
      · have ha := a1
        rw [d] at ha
        simp only [List.length_nil, Nat.zero_add] at ha
        omega
  | startTurn captured now =>
    obtain ⟨J0, p0, d0, e0⟩ := fireDueTimers_spec s now captured hJ
    obtain ⟨J1, pr1, d1, e1⟩ := startTurnCore_spec (fireDueTimers s now captured).1 captured J0
    simp only [stepT]
    unfold StepSpec
    dsimp only
    have hlen : (startTurnCore (fireDueTimers s now captured).1 captured).1.detectedDarts.length =
        s.detectedDarts.length ∨
        (startTurnCore (fireDueTimers s now captured).1 captured).1.detectedDarts.length = 0 := by
      rcases d1 with d | d
      · rcases d0 with d' | d'
        · rw [d, d']
          exact Or.inl rfl
        · rw [d, d']
          exact Or.inr rfl
      · rw [d]
        exact Or.inr rfl
    refine ⟨J1, ?_, ?_, ?_, ?_⟩
    · rw [List.countP_append, e0, e1]
      rw [if_neg (by rintro ⟨h2, h3⟩; omega)]
    · intro ds hds
      rcases List.mem_append.mp hds with h | h
      · exact absurd rfl (List.countP_eq_zero.mp e0 _ h)
      · exact absurd rfl (List.countP_eq_zero.mp e1 _ h)
    · intro h2 h3
      exfalso
      omega
    · omega
  | reset now =>
    obtain ⟨J0, p0, d0, e0⟩ := fireDueTimers_spec s now none hJ
    simp only [stepT]
    unfold resetCore
    unfold StepSpec
    dsimp only
    refine ⟨⟨by simp, by simp⟩, ?_, ?_, ?_, ?_⟩
    · rw [List.countP_append, e0]
      rw [if_neg (by rintro ⟨_, h3⟩; simp at h3)]
      rfl
    · intro ds hds
      rcases List.mem_append.mp hds with h | h
      · exact absurd rfl (List.countP_eq_zero.mp e0 _ h)
      · simp at h
    · intro _ h3
      simp at h3
    · simp

theorem reachable_dartInv (s : TrackerSt Frame Board Dart)
    (h : ReachableT diffChangeArea getSmoothedB s) : dartInv s := by
  induction h with
  | init => exact ⟨by simp [initialState], fun hc => by simp [initialState] at hc⟩
  | step s a hs ih => exact (stepT_spec diffChangeArea getSmoothedB s a ih).1

/-- **C7**: in every reachable tracker state the list of detected darts
holds at most 3 entries, and this persists through any step; in a step,
`onTurnComplete` is invoked exactly once when the 3rd dart is appended
and never otherwise; every invocation carries the post-state's dart
list, of length exactly 3, and the post-state is `turn-complete`; and
appending the 3rd dart (2 darts before the step, 3 after) always
transitions to `turn-complete` and invokes `onTurnComplete` with the
full dart list. -/
theorem C7_turn_invariant (s : TrackerSt Frame Board Dart)
    (h : ReachableT diffChangeArea getSmoothedB s) (a : TAction Frame Board Dart) :
    s.detectedDarts.length ≤ 3 ∧
    (stepT diffChangeArea getSmoothedB s a).1.detectedDarts.length ≤ 3 ∧
    ((stepT diffChangeArea getSmoothedB s a).2.countP isTurnCompleteEv =
      if s.detectedDarts.length = 2 ∧
          (stepT diffChangeArea getSmoothedB s a).1.detectedDarts.length = 3 then 1 else 0) ∧
    (∀ ds, TEvent.turnComplete ds ∈ (stepT diffChangeArea getSmoothedB s a).2 →
      ds = (stepT diffChangeArea getSmoothedB s a).1.detectedDarts ∧ ds.length = 3 ∧
      (stepT diffChangeArea getSmoothedB s a).1.state = TState.turnComplete ∧
      s.detectedDarts.length = 2) ∧
    (s.detectedDarts.length = 2 →
      (stepT diffChangeArea getSmoothedB s a).1.detectedDarts.length = 3 →
      (stepT diffChangeArea getSmoothedB s a).1.state = TState.turnComplete ∧
      TEvent.turnComplete (stepT diffChangeArea getSmoothedB s a).1.detectedDarts ∈
        (stepT diffChangeArea getSmoothedB s a).2) := by
  have hJ := reachable_dartInv diffChangeArea getSmoothedB s h
  obtain ⟨J1, c1, m1, l1, a1⟩ := stepT_spec diffChangeArea getSmoothedB s a hJ
  exact ⟨hJ.1, J1.1, c1, m1, l1⟩

end TrackerThm

/-- Witness for `C7_turn_invariant`: the initial state is reachable, and
the theorem applies to it (shown here for a `reset` step on a trivial
vision pipeline). -/
theorem C7_turn_invariant_witness :
    ReachableT (fun _ _ => 0 : ℕ → ℕ → ℕ) (fun _ => none : List ℕ → Option ℕ)
      (@initialState ℕ ℕ ℕ) ∧
    (stepT (fun _ _ => 0 : ℕ → ℕ → ℕ) (fun _ => none : List ℕ → Option ℕ)
      (@initialState ℕ ℕ ℕ) (TAction.reset 0)).1.detectedDarts.length ≤ 3 :=
  ⟨ReachableT.init,
    (C7_turn_invariant (fun _ _ => 0 : ℕ → ℕ → ℕ) (fun _ => none : List ℕ → Option ℕ)
      (@initialState ℕ ℕ ℕ) ReachableT.init (TAction.reset 0)).2.1⟩

set_option maxRecDepth 4000 in
unseal Rat.add Rat.mul Rat.sub Rat.inv in
/-- **C1** (refuted): after the 3rd dart the tracker's single
`referenceFrame` holds the post-dart-3 capture (scene `102`), not the
empty-board frame captured at `startTurn` (scene `0`); the removal check
then compares the current frame against that overwritten reference, so
with all 3 darts still on the board (scene `102`) it sees a changed area
of 0 < REMOVAL_THRESHOLD and transitions to `idle` — even though the
comparison against the original empty-board frame yields 1000, far above
the threshold. -/
theorem C1_removal_reference_bug :
    c1Pre.state = TState.turnComplete ∧
    c1Pre.detectedDarts.length = 3 ∧
    c1Pre.referenceFrame = some 102 ∧
    (some 102 : Option ℕ) ≠ some 0 ∧
    ¬ c1Diff 102 0 < REMOVAL_THRESHOLD ∧
    c1Diff 102 102 < REMOVAL_THRESHOLD ∧
    c1Final.state = TState.idle ∧
    c1Final.detectedDarts.length = 3 ∧
    c1Final.pendingStartAt = some 97000 := by
  decide

end Tracker
